import Mathlib

/-!
Shallow embedding of the `dcf_app` valuation core
(`src/backend/cost_of_capital.py` and `src/backend/dcf_engine_v2.py`).

Modelling conventions:
* A Python `float` is modelled by `PyFloat`: a finite rational or one of the
  IEEE special values `nan`, `+inf`, `-inf`.  Arithmetic on already-sanitized
  values is carried out in `ℚ`; rounding error and overflow of machine doubles
  are not modelled (the idealized no-overflow semantics of the engine).
* Optional / absent numeric inputs are `Option PyFloat`.
* Python truthiness (`x or d`, `if x:`) is modelled explicitly: `0.0`, `None`,
  empty strings/lists are falsy; `nan` and the infinities are truthy.
* Python `round` (banker's rounding) is `pyRound`; `statistics.median` is
  `pyMedian` (mean of the two middle elements for even length).
* The source file defines `compute_normalized_base_fcff` and
  `compute_fcf_cagr_5y` twice with identical bodies (the later definition
  shadows the earlier); each is embedded once.
-/

namespace DcfApp

/-- A Python float: a finite rational number or an IEEE special value. -/
inductive PyFloat where
  | fin (q : ℚ)
  | pinf
  | ninf
  | nan
deriving DecidableEq

/-- Python `math.isfinite`. -/
def PyFloat.isFin : PyFloat → Bool
  | .fin _ => true
  | _ => false

/-- Python truthiness of a float: `0.0` is falsy, everything else (including
`nan` and the infinities) is truthy. -/
def PyFloat.truthy : PyFloat → Bool
  | .fin q => q != 0
  | _ => true

/-- IEEE addition on special values; finite arithmetic is exact. -/
def PyFloat.add : PyFloat → PyFloat → PyFloat
  | .nan, _ => .nan
  | _, .nan => .nan
  | .pinf, .ninf => .nan
  | .ninf, .pinf => .nan
  | .pinf, _ => .pinf
  | _, .pinf => .pinf
  | .ninf, _ => .ninf
  | _, .ninf => .ninf
  | .fin a, .fin b => .fin (a + b)

/-- IEEE negation. -/
def PyFloat.neg : PyFloat → PyFloat
  | .fin q => .fin (-q)
  | .pinf => .ninf
  | .ninf => .pinf
  | .nan => .nan

/-- IEEE subtraction. -/
def PyFloat.sub (a b : PyFloat) : PyFloat := a.add b.neg

/-- IEEE multiplication on special values; finite arithmetic is exact. -/
def PyFloat.mul : PyFloat → PyFloat → PyFloat
  | .fin a, .fin b => .fin (a * b)
  | .nan, _ => .nan
  | _, .nan => .nan
  | .pinf, .pinf => .pinf
  | .pinf, .ninf => .ninf
  | .ninf, .pinf => .ninf
  | .ninf, .ninf => .pinf
  | .pinf, .fin b => if b = 0 then .nan else if 0 < b then .pinf else .ninf
  | .fin a, .pinf => if a = 0 then .nan else if 0 < a then .pinf else .ninf
  | .ninf, .fin b => if b = 0 then .nan else if 0 < b then .ninf else .pinf
  | .fin a, .ninf => if a = 0 then .nan else if 0 < a then .ninf else .pinf

/-- IEEE division.  Division by an exact zero raises `ZeroDivisionError` in
Python; every call site in the engine guards against it, so that case is
mapped to `nan` here (it is unreachable). -/
def PyFloat.div : PyFloat → PyFloat → PyFloat
  | .fin a, .fin b => if b = 0 then .nan else .fin (a / b)
  | .nan, _ => .nan
  | _, .nan => .nan
  | .pinf, .pinf => .nan
  | .pinf, .ninf => .nan
  | .ninf, .pinf => .nan
  | .ninf, .ninf => .nan
  | .fin _, .pinf => .fin 0
  | .fin _, .ninf => .fin 0
  | .pinf, .fin b => if 0 ≤ b then .pinf else .ninf
  | .ninf, .fin b => if 0 ≤ b then .ninf else .pinf

/-- Python `<=` on floats: any comparison involving `nan` is false. -/
def PyFloat.le : PyFloat → PyFloat → Bool
  | .nan, _ => false
  | _, .nan => false
  | .ninf, _ => true
  | _, .ninf => false
  | _, .pinf => true
  | .pinf, _ => false
  | .fin a, .fin b => a ≤ b

/-- Python `<` on floats: any comparison involving `nan` is false. -/
def PyFloat.lt : PyFloat → PyFloat → Bool
  | .nan, _ => false
  | _, .nan => false
  | .fin a, .fin b => a < b
  | .ninf, .ninf => false
  | .ninf, _ => true
  | _, .ninf => false
  | .pinf, _ => false
  | _, .pinf => true

/-- Clamp a rational to `[lo, hi]`, as `max(lower, min(value, upper))`. -/
def clampQ (value lo hi : ℚ) : ℚ := max lo (min value hi)

/-- Source `_clamp` from the source: a non-finite value collapses to the lower
bound, a finite value is clamped to `[lo, hi]`. -/
def pyClamp (value : PyFloat) (lo hi : ℚ) : ℚ :=
  match value with
  | .fin q => clampQ q lo hi
  | _ => lo

/-- Source `_safe_optional`: keep only finite values, everything else becomes
absent. -/
def safe_optional : Option PyFloat → Option ℚ
  | some (.fin q) => some q
  | _ => none

/-- Source `_safe_float`: a finite value passes through, everything else becomes the
default. -/
def safe_float (v : Option PyFloat) (default : ℚ) : ℚ :=
  match v with
  | some (.fin q) => q
  | _ => default

/-- Source `_clean_number`: the serialization gate; non-finite values become
absent. -/
def clean_number : PyFloat → Option PyFloat
  | .fin q => some (.fin q)
  | _ => none

/-- Source `_clean_number` applied to an already-optional value (`None` stays
absent). -/
def clean_number_opt (v : Option PyFloat) : Option PyFloat :=
  v.bind clean_number

/-- Python `x or d` on an optional float (`None` and `0.0` are falsy, `nan`
and the infinities are truthy). -/
def pyOr (v : Option PyFloat) (d : PyFloat) : PyFloat :=
  match v with
  | some x => if x.truthy then x else d
  | none => d

/-- Python `max(0.0, x)` on a float: `x` wins only when `x > 0.0` (so
`max(0.0, nan) = 0.0`, `max(0.0, inf) = inf`). -/
def pyMax0 : PyFloat → PyFloat
  | x => if (PyFloat.fin 0).lt x then x else .fin 0

/-- Python `x or d` on optional ints (`None` and `0` are falsy). -/
def pyOrInt (v : Option ℤ) (d : ℤ) : ℤ :=
  match v with
  | some x => if x ≠ 0 then x else d
  | none => d

/-- Python `round` to an integer: round half to even (banker's rounding). -/
def pyRound (q : ℚ) : ℤ :=
  let f := ⌊q⌋
  if q - f < 1/2 then f
  else if 1/2 < q - f then f + 1
  else if f % 2 = 0 then f else f + 1

/-- Insert into a sorted list (ascending). -/
def insertSorted (x : ℚ) : List ℚ → List ℚ
  | [] => [x]
  | y :: ys => if x ≤ y then x :: y :: ys else y :: insertSorted x ys

/-- Insertion sort, ascending (the order `statistics.median` sorts by). -/
def sortQ : List ℚ → List ℚ
  | [] => []
  | x :: xs => insertSorted x (sortQ xs)

/-- Python `statistics.median`: middle element of the sorted list, or the mean of
the two middle elements for even length.  Call sites only use nonempty
lists. -/
def pyMedian (l : List ℚ) : ℚ :=
  let s := sortQ l
  let n := l.length
  if n % 2 = 1 then s.getD (n / 2) 0
  else (s.getD (n / 2 - 1) 0 + s.getD (n / 2) 0) / 2

/-- Prefix test on character lists. -/
def listStartsWith : List Char → List Char → Bool
  | _, [] => true
  | [], _ :: _ => false
  | a :: as, b :: bs => a = b && listStartsWith as bs

/-- Substring test on character lists (Python `pat in s`). -/
def listHasInfix (pat : List Char) : List Char → Bool
  | [] => pat.isEmpty
  | c :: rest => listStartsWith (c :: rest) pat || listHasInfix pat rest

/-- Lower-cased character content of a Python string (`s.lower()`). -/
def lowerChars (s : String) : List Char := s.toList.map Char.toLower

/-! ## Cost-of-capital calculator (`cost_of_capital.py`) -/

def BETA_MIN : ℚ := 1/2

def BETA_MAX : ℚ := 2

/-- Source `compute_unlevered_beta(beta_levered, debt_equity, tax_rate)`:
Hamada unlever with clamped inputs.  `beta_levered if beta_levered is not
None else 1.0` feeds `_clamp`; `debt_equity or 0.0` feeds `max(0.0, ·)`. -/
def compute_unlevered_beta (beta_levered debt_equity tax_rate : Option PyFloat) : ℚ :=
  let beta := pyClamp (beta_levered.getD (.fin 1)) BETA_MIN BETA_MAX
  let deRat := pyMax0 (pyOr debt_equity (.fin 0))
  let tax := pyClamp (tax_rate.getD (.fin (21/100))) 0 (1/2)
  let denominator := (PyFloat.fin 1).add (deRat.mul (.fin (1 - tax)))
  if denominator.le (.fin 0) then beta
  else pyClamp ((PyFloat.fin beta).div denominator) BETA_MIN BETA_MAX

/-- Source `compute_relevered_beta(beta_unlevered, target_debt_equity, tax_rate)`:
the inverse Hamada transform, same clamps. -/
def compute_relevered_beta (beta_unlevered target_debt_equity tax_rate : Option PyFloat) : ℚ :=
  let beta := pyClamp (beta_unlevered.getD (.fin 1)) BETA_MIN BETA_MAX
  let deRat := pyMax0 (pyOr target_debt_equity (.fin 0))
  let tax := pyClamp (tax_rate.getD (.fin (21/100))) 0 (1/2)
  let relevered := (PyFloat.fin beta).mul ((PyFloat.fin 1).add (deRat.mul (.fin (1 - tax))))
  pyClamp relevered BETA_MIN BETA_MAX

/-! ## Input data model (`run_dcf_v2` inputs)

The metrics payload is a loosely-shaped dict in the source; numeric fields
are modelled as optional floats, list entries as small records.  The `label`
of an `fcfSeries` entry is modelled as the year already resolved by
`_label_to_year` (absent when the label resolves to no year). -/

structure FcfEntry where
  label : Option ℤ
  value : Option PyFloat
deriving DecidableEq

structure NopatEntry where
  year : Option ℤ
  nopat : Option PyFloat
deriving DecidableEq

structure RoicEntry where
  roic : Option PyFloat
deriving DecidableEq

structure Metrics where
  growthModel : String
  revenueLast : Option PyFloat
  revenueCAGR5Y : Option PyFloat
  netDebt : Option PyFloat
  sharesOutstanding : Option PyFloat
  baseYearFcffNormalized : Option PyFloat
  baseFcf : Option PyFloat
  fcfSeries : List FcfEntry
  nopatHistory : List NopatEntry
  roicHistory : List RoicEntry
  baseYear : Option ℤ
  horizonYears : Option ℤ
deriving DecidableEq

/-- The engine reads only the `wacc` key of the cost-of-capital payload. -/
structure CostOfCapital where
  wacc : Option PyFloat
deriving DecidableEq

/-! ## Scenario configuration (`get_scenario_config`) -/

inductive Preset where
  | conservative
  | base
  | optimistic
deriving DecidableEq

/-- Parsing `ScenarioPreset(preset.lower())`; an unrecognized string defaults to
`base`. -/
def parsePreset (s : String) : Preset :=
  if lowerChars s = "conservative".toList then .conservative
  else if lowerChars s = "base".toList then .base
  else if lowerChars s = "optimistic".toList then .optimistic
  else .base

structure ScenarioConfig where
  name : String
  wacc_shift : ℚ
  wacc_min : ℚ
  wacc_max : ℚ
  g_terminal_min : ℚ
  g_terminal_max : ℚ
  horizon_override : Option ℤ
  base_fcff_forward_tilt : ℚ
  high_growth_years : ℤ
  rev_phase1_min : ℚ
  rev_phase1_max : ℚ
  rev_terminal : ℚ
  margin_uplift : ℚ
deriving DecidableEq

/-- The six fixed assumption bundles of `get_scenario_config`. -/
def get_scenario_config (preset : String) (archetype : String) : ScenarioConfig :=
  let p := parsePreset preset
  if archetype = "hypergrowth" then
    match p with
    | .conservative =>
      { name := "conservative", wacc_shift := 5/1000, wacc_min := 72/1000, wacc_max := 9/100,
        g_terminal_min := 28/1000, g_terminal_max := 34/1000, horizon_override := some 10,
        base_fcff_forward_tilt := 15/100, high_growth_years := 8,
        rev_phase1_min := 18/100, rev_phase1_max := 30/100, rev_terminal := 55/1000,
        margin_uplift := 2/100 }
    | .optimistic =>
      { name := "optimistic", wacc_shift := -1/100, wacc_min := 6/100, wacc_max := 8/100,
        g_terminal_min := 32/1000, g_terminal_max := 5/100, horizon_override := some 15,
        base_fcff_forward_tilt := 1/2, high_growth_years := 12,
        rev_phase1_min := 28/100, rev_phase1_max := 45/100, rev_terminal := 8/100,
        margin_uplift := 8/100 }
    | .base =>
      { name := "base", wacc_shift := 0, wacc_min := 65/1000, wacc_max := 85/1000,
        g_terminal_min := 3/100, g_terminal_max := 4/100, horizon_override := some 12,
        base_fcff_forward_tilt := 3/10, high_growth_years := 10,
        rev_phase1_min := 24/100, rev_phase1_max := 4/10, rev_terminal := 7/100,
        margin_uplift := 5/100 }
  else
    match p with
    | .conservative =>
      { name := "conservative", wacc_shift := 1/100, wacc_min := 8/100, wacc_max := 11/100,
        g_terminal_min := 2/100, g_terminal_max := 27/1000, horizon_override := some 8,
        base_fcff_forward_tilt := 0, high_growth_years := 4,
        rev_phase1_min := 5/100, rev_phase1_max := 8/100, rev_terminal := 3/100,
        margin_uplift := 0 }
    | .optimistic =>
      { name := "optimistic", wacc_shift := -1/100, wacc_min := 6/100, wacc_max := 9/100,
        g_terminal_min := 28/1000, g_terminal_max := 35/1000, horizon_override := some 12,
        base_fcff_forward_tilt := 4/10, high_growth_years := 6,
        rev_phase1_min := 8/100, rev_phase1_max := 12/100, rev_terminal := 35/1000,
        margin_uplift := 3/100 }
    | .base =>
      { name := "base", wacc_shift := 0, wacc_min := 7/100, wacc_max := 1/10,
        g_terminal_min := 25/1000, g_terminal_max := 33/1000, horizon_override := none,
        base_fcff_forward_tilt := 1/4, high_growth_years := 5,
        rev_phase1_min := 6/100, rev_phase1_max := 9/100, rev_terminal := 32/1000,
        margin_uplift := 1/100 }

/-! ## Base-FCFF normalizer and auxiliary signals -/

/-- Source `_extract_fcf_values`: finite numeric `value`s of the series, in order. -/
def extract_fcf_values (s : List FcfEntry) : List ℚ :=
  s.filterMap (fun e =>
    match e.value with
    | some (.fin q) => some q
    | _ => none)

/-- The linearly-decreasing-weight average of `compute_normalized_base_fcff`:
`weights = range(len(trimmed), 0, -1)`, result `sum(v*w)/sum(weights)`. -/
def weightedAverage (trimmed : List ℚ) : ℚ :=
  let weights := (List.range trimmed.length).map (fun i => trimmed.length - i)
  (List.zipWith (fun v (w : ℕ) => v * (w : ℚ)) trimmed weights).sum /
    (weights.map (fun (w : ℕ) => (w : ℚ))).sum

/-- Source `compute_normalized_base_fcff(values, base_candidate)`.  The `values`
list at the call site is already finite (`_extract_fcf_values`), so the
`isfinite` re-check of the source is vacuous here; the strict-positivity
filters are kept. -/
def compute_normalized_base_fcff (values : List ℚ) (base_candidate : Option ℚ) : Option ℚ :=
  let valid := values.filter (fun v => 0 < v)
  let candidate := base_candidate.bind (fun c => if 0 < c then some c else none)
  let valid := valid ++ candidate.toList
  if valid.length < 2 then candidate
  else
    let recent := valid.take 5
    let med := pyMedian recent
    let trimmed := if med = 0 then recent else recent.filter (fun v => |v - med| / |med| ≤ 1/2)
    let trimmed := if trimmed = [] then recent else trimmed
    let normalized := weightedAverage trimmed
    if normalized ≤ 0 then candidate else some normalized

/-- Source `compute_fcf_cagr_5y(values)`: `(recent/oldest) ** (1/years) - 1` over up
to five positive entries.  The float power operator is the parameter `pw`
(a fixed but unspecified function on the representable rationals). -/
def compute_fcf_cagr_5y (pw : ℚ → ℚ → PyFloat) (values : List ℚ) : Option PyFloat :=
  let usable := values.filter (fun v => 0 < v)
  if usable.length < 2 then none
  else
    let oldestIndex := min (usable.length - 1) 4
    let recent := usable.getD 0 0
    let oldest := usable.getD oldestIndex 0
    let years := oldestIndex
    if oldest ≤ 0 ∨ recent ≤ 0 ∨ years = 0 then none
    else some ((pw (recent / oldest) (1 / (years : ℚ))).sub (.fin 1))

/-- The finite numeric `(year, value)` pairs of the series, in order; the
`fcff_by_year` dict of `compute_reinvestment_rate` (later pairs overwrite
earlier ones for the same year). -/
def buildFcffByYear (s : List FcfEntry) : List (ℤ × ℚ) :=
  s.filterMap (fun e =>
    match e.label, e.value with
    | some y, some (.fin q) => some (y, q)
    | _, _ => none)

/-- Dict lookup: the last binding for a year wins. -/
def lookupLast (l : List (ℤ × ℚ)) (y : ℤ) : Option ℚ :=
  match l.reverse.find? (fun p => p.1 == y) with
  | some p => some p.2
  | none => none

/-- The accumulation loop of `compute_reinvestment_rate`: clamped
`1 - FCFF/NOPAT` per overlapping year, stopping after five samples. -/
def reinvestLoop (fcffByYear : List (ℤ × ℚ)) : List NopatEntry → List ℚ → List ℚ
  | [], acc => acc
  | e :: rest, acc =>
    match e.year, e.nopat with
    | some y, some nv =>
      (match lookupLast fcffByYear y with
      | some fv =>
        if nv.le (.fin 0) || decide (fv ≤ 0) then reinvestLoop fcffByYear rest acc
        else
          let rate := pyClamp ((PyFloat.fin 1).sub ((PyFloat.fin fv).div nv)) 0 (3/5)
          let acc' := acc ++ [rate]
          if 5 ≤ acc'.length then acc' else reinvestLoop fcffByYear rest acc'
      | none => reinvestLoop fcffByYear rest acc)
    | _, _ => reinvestLoop fcffByYear rest acc

/-- Source `compute_reinvestment_rate(nopat_history, fcf_series)`. -/
def compute_reinvestment_rate (nopat_history : List NopatEntry) (fcf_series : List FcfEntry) :
    Option ℚ :=
  if nopat_history = [] ∨ fcf_series = [] then none
  else
    let reinvestments := reinvestLoop (buildFcffByYear fcf_series) nopat_history []
    if reinvestments = [] then none
    else some (reinvestments.sum / (reinvestments.length : ℚ))

/-- Source `compute_normalized_roic(roic_history)`: first five usable samples,
highest/lowest trimmed when at least three, average clamped to
`[0.05, 0.40]`. -/
def compute_normalized_roic (roic_history : List RoicEntry) : Option ℚ :=
  if roic_history = [] then none
  else
    let values := (roic_history.filterMap (fun e =>
      match e.roic with
      | some (.fin q) => if 0 < q ∧ q ≤ 1 then some q else none
      | _ => none)).take 5
    if values = [] then none
    else
      let valuesSorted := sortQ values
      let trimmed := if 3 ≤ valuesSorted.length then (valuesSorted.drop 1).dropLast else valuesSorted
      let trimmed := if trimmed = [] then valuesSorted else trimmed
      some (clampQ (trimmed.sum / (trimmed.length : ℚ)) (1/20) (2/5))

/-- Source `compute_roic_implied_growth(normalized_roic, reinvestment_rate)`. -/
def compute_roic_implied_growth (normalizedRoic reinvestmentRate : Option ℚ) : Option ℚ :=
  match normalizedRoic, reinvestmentRate with
  | some n, some r => some (clampQ (n * r) 0 (3/20))
  | _, _ => none

/-- Source `resolve_terminal_growth(g_terminal_input, revenue_cagr, min_val,
max_val)`.  The `revenue_cagr` argument arrives already sanitized at the
call site, so it is a finite optional rational here. -/
def resolve_terminal_growth (gTerminalInput : Option PyFloat) (revenueCagr : Option ℚ)
    (minVal maxVal : ℚ) : ℚ :=
  match gTerminalInput with
  | some (.fin g) => clampQ g minVal maxVal
  | _ =>
    let rev := match revenueCagr with
      | some r => r
      | none => 3/100
    let rev := clampQ rev 0 (6/100)
    clampQ (2/100 + rev / 2) minVal maxVal

/-! ## Archetype classifier -/

/-- Python `v and v >= c` for a sanitized optional number (`0.0` is falsy). -/
def truthyGe (v : Option ℚ) (c : ℚ) : Bool :=
  match v with
  | some q => q != 0 && decide (c ≤ q)
  | none => false

/-- Python `v and v >= c` for a raw float value (`nan >= c` is false,
`inf >= c` is true). -/
def truthyGeF (v : Option PyFloat) (c : ℚ) : Bool :=
  match v with
  | some x => x.truthy && (PyFloat.fin c).le x
  | none => false

/-- Source `classify_company_archetype(metrics, base_fcff, fcf_values)`.  The
`base_fcff` argument is accepted and ignored, exactly as in the source. -/
def classify_company_archetype (pw : ℚ → ℚ → PyFloat) (metrics : Metrics)
    (base_fcff : ℚ) (fcf_values : List ℚ) : String :=
  let _ := base_fcff
  let hint := lowerChars metrics.growthModel
  if listHasInfix "high".toList hint || listHasInfix "hyper".toList hint then "hypergrowth"
  else if listHasInfix "mature".toList hint || listHasInfix "stable".toList hint then "mature"
  else
    let revenueCagr := safe_optional metrics.revenueCAGR5Y
    let fcfCagr := compute_fcf_cagr_5y pw fcf_values
    let revenueLast := safe_optional metrics.revenueLast
    if truthyGe revenueLast 5000000000 && truthyGe revenueCagr (25/100) then "hypergrowth"
    else if truthyGeF fcfCagr (25/100) then "hypergrowth"
    else if truthyGe revenueCagr (30/100) then "hypergrowth"
    else "mature"

/-! ## Growth path builders -/

/-- The per-year rate of the mature three-phase ramp (`build_growth_path`
loop body): flat short rate through phase 1, then two linear
interpolations. -/
def growthRateAt (p1 p2 h : ℤ) (gs gm gt : ℚ) (year : ℤ) : ℚ :=
  if year ≤ p1 then gs
  else if year ≤ p2 then
    gs + (gm - gs) * (((year : ℚ) - (p1 : ℚ)) / ((max 1 (p2 - p1) : ℤ) : ℚ))
  else
    gm + (gt - gm) * (((year : ℚ) - (p2 : ℚ)) / ((max 1 (h - p2) : ℤ) : ℚ))

structure GrowthPath where
  rates : List ℚ
  gShort : ℚ
  gMid : ℚ
  gTerminal : ℚ
deriving DecidableEq

/-- Source `build_growth_path(horizon_years, g_terminal, fcf_cagr, revenue_cagr,
roic_growth)`.  Phase boundaries use Python's banker's rounding of `0.3 *
horizon` and `0.7 * horizon` (modelled as exact rational rounding). -/
def build_growth_path (horizon_years : ℤ) (g_terminal : ℚ)
    (fcf_cagr revenue_cagr roic_growth : Option PyFloat) : GrowthPath :=
  let horizon : ℤ := max 1 horizon_years
  let candidates : List ℚ := ([fcf_cagr, revenue_cagr, roic_growth].filterMap id).filterMap
    (fun v =>
      match v with
      | .fin q => if 0 < q then some q else none
      | _ => none)
  let g_short : ℚ :=
    if candidates.length ≠ 0 then
      let gShortRaw := pyMedian candidates
      if gShortRaw < 2/100 then 1/100 else clampQ gShortRaw (4/100) (12/100)
    else 2/100
  let g_mid := clampQ ((g_short + g_terminal) / 2) (3/100) (8/100)
  let p1 := min horizon (max 1 (pyRound (3 * (horizon : ℚ) / 10)))
  let p2 := min horizon (max (p1 + 1) (pyRound (7 * (horizon : ℚ) / 10)))
  let rates := (List.range horizon.toNat).map
    (fun (i : ℕ) => growthRateAt p1 p2 horizon g_short g_mid g_terminal ((i : ℤ) + 1))
  ⟨rates, g_short, g_mid, g_terminal⟩

/-- Source `build_hypergrowth_revenue_path(horizon, high_growth_years,
phase1_growth, terminal_growth)`. -/
def build_hypergrowth_revenue_path (horizon high_growth_years : ℤ)
    (phase1_growth terminal_growth : ℚ) : List ℚ :=
  let h := max 1 horizon
  let phase1Years := min high_growth_years h
  let p1g := clampQ phase1_growth (1/10) (3/5)
  let tg := clampQ terminal_growth (3/100) (1/10)
  (List.range h.toNat).map (fun (i : ℕ) =>
    let year : ℤ := (i : ℤ) + 1
    if year ≤ phase1Years then p1g
    else p1g + (tg - p1g) * (((year : ℚ) - (phase1Years : ℚ)) / ((max 1 (h - phase1Years) : ℤ) : ℚ)))

/-- Source `build_hypergrowth_margin_path(start_margin, terminal_margin,
horizon)`. -/
def build_hypergrowth_margin_path (start_margin terminal_margin : ℚ) (horizon : ℤ) : List ℚ :=
  let h := max 1 horizon
  let start := clampQ start_margin (1/50) (9/20)
  let terminal := clampQ terminal_margin (1/20) (1/2)
  if h = 1 then [terminal]
  else (List.range h.toNat).map
    (fun (i : ℕ) => start + (terminal - start) * ((i : ℚ) / ((h : ℚ) - 1)))

/-! ## Discounted projector -/

structure ForecastYear where
  year : ℤ
  growth : Option PyFloat
  fcff : Option PyFloat
  discountFactor : Option PyFloat
  pvFcff : Option PyFloat
  revenue : Option PyFloat
  fcffMargin : Option PyFloat
deriving DecidableEq

/-- The terminal-value summary dict.  `terminalReinvestmentRate` is always
`None` in the source (and the key is simply missing on the empty-horizon
early return, also modelled as absent). -/
structure TerminalSummary where
  fcffTerminal : Option PyFloat
  gTerminal : Option PyFloat
  terminalReinvestmentRate : Option PyFloat
  tv : Option PyFloat
  pvTv : Option PyFloat
deriving DecidableEq

structure HyperMeta where
  fcffMarginStart : Option PyFloat
  fcffMarginTerminal : Option PyFloat
  growthPhase1Rev : Option PyFloat
  growthPhase2Rev : Option PyFloat
deriving DecidableEq

/-- The forecast loop of `project_fcff`: compounds FCFF along the growth
path, discounts, and records cleaned per-year entries.  Returns the
forecast list and the (raw) sum of present values. -/
def projectLoop (waccSafe : ℚ) (baseYear : Option ℤ) : List ℚ → ℚ → ℕ → (List ForecastYear × ℚ)
  | [], _, _ => ([], 0)
  | g :: rest, fcffCurrent, idx =>
    let fcffNext := fcffCurrent * (1 + g)
    let df := 1 / (1 + waccSafe) ^ idx
    let pv := fcffNext * df
    let rest' := projectLoop waccSafe baseYear rest fcffNext (idx + 1)
    let yearLabel : ℤ := match baseYear with
      | some b => b + (idx : ℤ)
      | none => (idx : ℤ)
    ({ year := yearLabel, growth := clean_number (.fin g), fcff := clean_number (.fin fcffNext),
       discountFactor := clean_number (.fin df), pvFcff := clean_number (.fin pv),
       revenue := none, fcffMargin := none } :: rest'.1, pv + rest'.2)

/-- Source `project_fcff(base_fcff, growth_path, wacc, g_terminal, base_year)`. -/
def project_fcff (base_fcff : ℚ) (growth_path : List ℚ) (wacc g_terminal : ℚ)
    (base_year : Option ℤ) : (List ForecastYear × TerminalSummary × ℚ) :=
  if growth_path.length = 0 then
    ([], { fcffTerminal := some (.fin 0), gTerminal := some (.fin g_terminal),
           terminalReinvestmentRate := none, tv := some (.fin 0), pvTv := some (.fin 0) }, 0)
  else
    let waccSafe := max wacc (1/100)
    let gT := clampQ g_terminal (15/1000) (25/1000)
    let res := projectLoop waccSafe base_year growth_path base_fcff 1
    let lastFcff : Option PyFloat := match res.1.getLast? with
      | some e => e.fcff
      | none => some (.fin base_fcff)
    let denom := max (waccSafe - gT) (3/100)
    let terminalValue := ((pyOr lastFcff (.fin 0)).mul (.fin (1 + gT))).div (.fin denom)
    let pvTerminal := terminalValue.div (.fin ((1 + waccSafe) ^ growth_path.length))
    (res.1,
      { fcffTerminal := clean_number_opt lastFcff, gTerminal := clean_number (.fin gT),
        terminalReinvestmentRate := none, tv := clean_number terminalValue,
        pvTv := clean_number pvTerminal }, res.2)

/-- The forecast loop of `project_fcff_hypergrowth`: revenue compounds along
the growth path, FCFF is revenue times the margin-path entry at the same
index. -/
def hyperLoop (waccSafe : ℚ) (baseYear : Option ℤ) (marginPath : List ℚ) :
    List ℚ → ℚ → ℕ → (List ForecastYear × ℚ)
  | [], _, _ => ([], 0)
  | g :: rest, revenue, idx =>
    let revenueNext := revenue * (1 + g)
    let margin := marginPath.getD idx 0
    let fcffValue := revenueNext * margin
    let df := 1 / (1 + waccSafe) ^ (idx + 1)
    let pv := fcffValue * df
    let rest' := hyperLoop waccSafe baseYear marginPath rest revenueNext (idx + 1)
    let yearLabel : ℤ := match baseYear with
      | some b => b + (idx : ℤ) + 1
      | none => (idx : ℤ) + 1
    ({ year := yearLabel, growth := clean_number (.fin g), fcff := clean_number (.fin fcffValue),
       discountFactor := clean_number (.fin df), pvFcff := clean_number (.fin pv),
       revenue := clean_number (.fin revenueNext), fcffMargin := clean_number (.fin margin) }
      :: rest'.1, pv + rest'.2)

/-- Source `project_fcff_hypergrowth(base_revenue, revenue_growth_path, margin_path,
wacc, g_terminal, base_year)`: raises (`Except.error`) on a missing or
non-positive base revenue. -/
def project_fcff_hypergrowth (base_revenue : Option ℚ) (revenue_growth_path marginPath : List ℚ)
    (wacc g_terminal : ℚ) (base_year : Option ℤ) :
    Except String (List ForecastYear × TerminalSummary × ℚ × HyperMeta) :=
  match base_revenue with
  | none => .error "Invalid revenue for hypergrowth projection"
  | some br =>
    if br ≤ 0 then .error "Invalid revenue for hypergrowth projection"
    else if revenue_growth_path.length = 0 then
      .ok ([], { fcffTerminal := some (.fin 0), gTerminal := some (.fin g_terminal),
                 terminalReinvestmentRate := none, tv := some (.fin 0), pvTv := some (.fin 0) },
           0, { fcffMarginStart := none, fcffMarginTerminal := none,
                growthPhase1Rev := none, growthPhase2Rev := none })
    else
      let waccSafe := max wacc (1/100)
      let gT := clampQ g_terminal (1/50) (1/20)
      let res := hyperLoop waccSafe base_year marginPath revenue_growth_path br 0
      let lastFcff : Option PyFloat := match res.1.getLast? with
        | some e => e.fcff
        | none => some (.fin (br * marginPath.getD 0 0))
      let spread := max (waccSafe - gT) (1/40)
      let terminalValue := ((pyOr lastFcff (.fin 0)).mul (.fin (1 + gT))).div (.fin spread)
      let pvTerminal := terminalValue.div (.fin ((1 + waccSafe) ^ revenue_growth_path.length))
      let meta : HyperMeta :=
        { fcffMarginStart := clean_number_opt (marginPath.head?.map .fin),
          fcffMarginTerminal := clean_number_opt (marginPath.getLast?.map .fin),
          growthPhase1Rev := clean_number_opt (revenue_growth_path.head?.map .fin),
          growthPhase2Rev := clean_number_opt (revenue_growth_path.getLast?.map .fin) }
      .ok (res.1,
        { fcffTerminal := clean_number_opt lastFcff, gTerminal := clean_number (.fin gT),
          terminalReinvestmentRate := none, tv := clean_number terminalValue,
          pvTv := clean_number pvTerminal }, res.2, meta)

/-! ## Valuation orchestrator (`run_dcf_v2`) -/

structure Settings where
  horizonYears : ℤ
  horizonYearsUsed : ℤ
  gTerminal : PyFloat
  gTerminalUsed : PyFloat
  engineVersion : String
  wacc : PyFloat
  waccUsed : PyFloat
  growthShort : Option PyFloat
  growthMid : Option PyFloat
  baseFcffNormalized : PyFloat
  baseFcffProjectionStart : PyFloat
  scenarioPreset : String
  archetype : String
  revenueCAGR5YUsed : Option PyFloat
  fcffMarginStart : Option PyFloat
  fcffMarginTerminal : Option PyFloat
  growthPhase1Rev : Option PyFloat
  growthPhase2Rev : Option PyFloat
deriving DecidableEq

structure Valuation where
  settings : Settings
  fcffForecast : List ForecastYear
  terminalValue : TerminalSummary
  enterpriseValue : PyFloat
  equityValue : PyFloat
  impliedSharePrice : Option PyFloat
  baseFcff : PyFloat
deriving DecidableEq

/-- The values produced by whichever projection branch ran (the variables
bound inside the `try`/fallback blocks and read by the final `valuation`
dict). -/
structure BranchOut where
  forecast : List ForecastYear
  terminal : TerminalSummary
  pvSum : ℚ
  meta : HyperMeta
  gShort : Option ℚ
  gMid : Option ℚ
  baseProj : ℚ
  gTerm : ℚ
deriving DecidableEq

/-- Python `v and v > 0` on a sanitized optional number. -/
def truthyPos (v : Option ℚ) : Bool :=
  match v with
  | some r => r != 0 && decide (0 < r)
  | none => false

/-- Resolution `config["horizon_override"] or base_horizon or horizon_years` (int
truthiness: `None` and `0` fall through). -/
def resolveHorizon (override hint : Option ℤ) (caller : ℤ) : ℤ :=
  pyOrInt override (pyOrInt hint caller)

/-- The resolved base candidate: `baseYearFcffNormalized`, else `baseFcf`. -/
def baseCandidateOf (m : Metrics) : Option ℚ :=
  match safe_optional m.baseYearFcffNormalized with
  | some c => some c
  | none => safe_optional m.baseFcf

/-- The normalized base FCFF of a metrics payload, as computed at the top of
`run_dcf_v2`. -/
def baseFcffOf (m : Metrics) : Option ℚ :=
  compute_normalized_base_fcff (extract_fcf_values m.fcfSeries) (baseCandidateOf m)

/-- Expression `(path[0] + path[-1]) / 2 if path else None`: the hypergrowth `g_mid`
echo. -/
def pairMid (a b : Option ℚ) : Option ℚ :=
  match a, b with
  | some x, some y => some ((x + y) / 2)
  | _, _ => none

/-- The forward-tilt adjustment of the seed FCFF (`tilt > 0 and g_short is
not None` guard). -/
def tiltBase (baseFcff tilt : ℚ) (gShort : Option ℚ) : ℚ :=
  match gShort with
  | some gs => if 0 < tilt then baseFcff * (1 + tilt * gs) / (1 + gs) else baseFcff
  | none => baseFcff

/-- Expression `base_fcff_projection / revenue_last if revenue_last else None`. -/
def marginStartOfRev (baseProj : ℚ) (revenueLast : Option ℚ) : Option ℚ :=
  match revenueLast with
  | some r => if r ≠ 0 then some (baseProj / r) else none
  | none => none

/-- Wrap a hypergrowth projection outcome into the branch record; a raised
projection error becomes `none` (caught by the orchestrator). -/
def attempt_finish (gShort gMid : Option ℚ) (baseProj gTerm : ℚ)
    (res : Except String (List ForecastYear × TerminalSummary × ℚ × HyperMeta)) :
    Option BranchOut :=
  match res with
  | .error _ => none
  | .ok out =>
    some { forecast := out.1, terminal := out.2.1, pvSum := out.2.2.1, meta := out.2.2.2,
           gShort := gShort, gMid := gMid, baseProj := baseProj, gTerm := gTerm }

/-- The `try:` block of the hypergrowth attempt.  `none` models the raised
`DCFComputationError` that the orchestrator catches (margin failure, or a
projection failure), `some` the successful branch values. -/
def attempt_hypergrowth (config : ScenarioConfig) (effectiveHorizon : ℤ)
    (revenueCagr revenueLast : Option ℚ) (baseFcff wacc gTerminalUsed : ℚ)
    (baseYear : Option ℤ) : Option BranchOut :=
  let revGrowthHint := revenueCagr.getD config.rev_phase1_min
  let phase1Growth := clampQ revGrowthHint config.rev_phase1_min config.rev_phase1_max
  let revenueGrowthPath := build_hypergrowth_revenue_path effectiveHorizon
    config.high_growth_years phase1Growth config.rev_terminal
  let gShort := revenueGrowthPath.head?
  let gMid := pairMid revenueGrowthPath.head? revenueGrowthPath.getLast?
  let tilt := config.base_fcff_forward_tilt
  let baseProj := tiltBase baseFcff tilt gShort
  match marginStartOfRev baseProj revenueLast with
  | none => none
  | some ms =>
    if ms ≤ 0 then none
    else
      let marginTerminal := ms + config.margin_uplift
      let marginPath := build_hypergrowth_margin_path ms marginTerminal
        (revenueGrowthPath.length : ℤ)
      attempt_finish gShort gMid baseProj gTerminalUsed
        (project_fcff_hypergrowth revenueLast revenueGrowthPath marginPath wacc
          gTerminalUsed baseYear)

/-- The mature (fallback) branch of `run_dcf_v2`. -/
def mature_branch (config : ScenarioConfig) (effectiveHorizon : ℤ)
    (gTerminalUsed : ℚ) (fcfCagr : Option PyFloat) (revenueCagr roicGrowth : Option ℚ)
    (baseFcff wacc : ℚ) (baseYear : Option ℤ) : BranchOut :=
  let G := build_growth_path effectiveHorizon gTerminalUsed fcfCagr
    (revenueCagr.map .fin) (roicGrowth.map .fin)
  let tilt := config.base_fcff_forward_tilt
  let baseProj := if 0 < tilt then baseFcff * (1 + tilt * G.gShort) / (1 + G.gShort) else baseFcff
  let res := project_fcff baseProj G.rates wacc G.gTerminal baseYear
  { forecast := res.1, terminal := res.2.1, pvSum := res.2.2,
    meta := { fcffMarginStart := none, fcffMarginTerminal := none,
              growthPhase1Rev := none, growthPhase2Rev := none },
    gShort := some G.gShort, gMid := some G.gMid, baseProj := baseProj, gTerm := G.gTerminal }

/-- Source `run_dcf_v2(metrics, cost_of_capital, horizon_years, g_terminal,
scenario)`: the full orchestrator.  `Except.error` carries the stable code
of the raised `DCFComputationError`. -/
def run_dcf_v2 (pw : ℚ → ℚ → PyFloat) (metrics : Metrics) (cost_of_capital : CostOfCapital)
    (horizon_years : ℤ) (g_terminal : Option PyFloat) (scenario : String) :
    Except String Valuation :=
  let fcfValues := extract_fcf_values metrics.fcfSeries
  match baseFcffOf metrics with
  | none => .error "no_base_fcf"
  | some baseFcff =>
    let wacc0 := safe_float cost_of_capital.wacc (8/100)
    let wacc0 := if wacc0 ≤ 0 then 8/100 else wacc0
    let revenueLast := safe_optional metrics.revenueLast
    let archetype := classify_company_archetype pw metrics baseFcff fcfValues
    let config := get_scenario_config scenario archetype
    let revenueCagr := safe_optional metrics.revenueCAGR5Y
    let fcfCagr := compute_fcf_cagr_5y pw fcfValues
    let reinvestmentRate := compute_reinvestment_rate metrics.nopatHistory metrics.fcfSeries
    let normalizedRoic := compute_normalized_roic metrics.roicHistory
    let roicGrowth := compute_roic_implied_growth normalizedRoic reinvestmentRate
    let wacc := clampQ (wacc0 + config.wacc_shift) config.wacc_min config.wacc_max
    let effectiveHorizon := resolveHorizon config.horizon_override metrics.horizonYears horizon_years
    let gTerminalUsed := resolve_terminal_growth g_terminal revenueCagr
      config.g_terminal_min config.g_terminal_max
    let useHyper := archetype = "hypergrowth" && truthyPos revenueLast
    let branch :=
      match (if useHyper then
        attempt_hypergrowth config effectiveHorizon revenueCagr revenueLast baseFcff wacc
          gTerminalUsed metrics.baseYear
      else none) with
      | some b => b
      | none => mature_branch config effectiveHorizon gTerminalUsed fcfCagr revenueCagr
          roicGrowth baseFcff wacc metrics.baseYear
    let enterpriseValue := (PyFloat.fin branch.pvSum).add (pyOr branch.terminal.pvTv (.fin 0))
    let netDebt := safe_float metrics.netDebt 0
    let equityValue := enterpriseValue.sub (.fin netDebt)
    let shares := safe_float metrics.sharesOutstanding 0
    let impliedSharePrice : Option PyFloat :=
      if 0 < shares then some (equityValue.div (.fin shares)) else none
    .ok
      { settings :=
          { horizonYears := effectiveHorizon, horizonYearsUsed := effectiveHorizon,
            gTerminal := .fin branch.gTerm, gTerminalUsed := .fin branch.gTerm,
            engineVersion := "v2", wacc := .fin wacc, waccUsed := .fin wacc,
            growthShort := branch.gShort.map .fin, growthMid := branch.gMid.map .fin,
            baseFcffNormalized := .fin baseFcff, baseFcffProjectionStart := .fin branch.baseProj,
            scenarioPreset := config.name, archetype := archetype,
            revenueCAGR5YUsed := revenueCagr.map .fin,
            fcffMarginStart := branch.meta.fcffMarginStart,
            fcffMarginTerminal := branch.meta.fcffMarginTerminal,
            growthPhase1Rev := branch.meta.growthPhase1Rev,
            growthPhase2Rev := branch.meta.growthPhase2Rev },
        fcffForecast := branch.forecast,
        terminalValue := branch.terminal,
        enterpriseValue := enterpriseValue,
        equityValue := equityValue,
        impliedSharePrice := impliedSharePrice,
        baseFcff := .fin baseFcff }

/-! ## Statement-support definitions -/

/-- An optional output value that is absent or finite. -/
def finOpt : Option PyFloat → Bool
  | none => true
  | some v => v.isFin

def forecastYearFinite (e : ForecastYear) : Bool :=
  finOpt e.growth && finOpt e.fcff && finOpt e.discountFactor && finOpt e.pvFcff &&
    finOpt e.revenue && finOpt e.fcffMargin

def terminalFinite (t : TerminalSummary) : Bool :=
  finOpt t.fcffTerminal && finOpt t.gTerminal && finOpt t.terminalReinvestmentRate &&
    finOpt t.tv && finOpt t.pvTv

def settingsFinite (s : Settings) : Bool :=
  s.gTerminal.isFin && s.gTerminalUsed.isFin && s.wacc.isFin && s.waccUsed.isFin &&
    finOpt s.growthShort && finOpt s.growthMid && s.baseFcffNormalized.isFin &&
    s.baseFcffProjectionStart.isFin && finOpt s.revenueCAGR5YUsed &&
    finOpt s.fcffMarginStart && finOpt s.fcffMarginTerminal &&
    finOpt s.growthPhase1Rev && finOpt s.growthPhase2Rev

/-- Every numeric value of a returned valuation is finite or absent. -/
def valuationFinite (v : Valuation) : Bool :=
  settingsFinite v.settings && v.fcffForecast.all forecastYearFinite &&
    terminalFinite v.terminalValue && v.enterpriseValue.isFin && v.equityValue.isFin &&
    finOpt v.impliedSharePrice && v.baseFcff.isFin

/-- Finiteness of a whole engine outcome (an aborted run returns nothing,
so it is vacuously clean). -/
def resultFinite : Except String Valuation → Bool
  | .error _ => true
  | .ok v => valuationFinite v

def metaFinite (meta : HyperMeta) : Bool :=
  finOpt meta.fcffMarginStart && finOpt meta.fcffMarginTerminal &&
    finOpt meta.growthPhase1Rev && finOpt meta.growthPhase2Rev

/-- Finiteness of everything a projection branch hands to the valuation
assembly. -/
def branchFinite (b : BranchOut) : Bool :=
  b.forecast.all forecastYearFinite && terminalFinite b.terminal && metaFinite b.meta

/-- The archetype `run_dcf_v2` resolves for a metrics payload (the
`base_fcff` argument of the classifier is ignored by the source). -/
def archetypeOf (pw : ℚ → ℚ → PyFloat) (m : Metrics) : String :=
  classify_company_archetype pw m 0 (extract_fcf_values m.fcfSeries)

/-- The echoed `waccUsed` lies in the scenario band and the global band. -/
def waccBandOk (e : Except String Valuation) (cfg : ScenarioConfig) : Prop :=
  match e with
  | .error _ => True
  | .ok r => ∃ w : ℚ, r.settings.waccUsed = .fin w ∧ cfg.wacc_min ≤ w ∧ w ≤ cfg.wacc_max ∧
      3/50 ≤ w ∧ w ≤ 11/100

/-- The forecast of a successful run has the stated length. -/
def forecastLenOk (e : Except String Valuation) (n : ℕ) : Prop :=
  match e with
  | .error _ => True
  | .ok r => r.fcffForecast.length = n

/-- Any raised error carries the stable code `no_base_fcf`. -/
def errorCodeOk (e : Except String Valuation) : Prop :=
  match e with
  | .error msg => msg = "no_base_fcf"
  | .ok _ => True

/-- The echoed hypergrowth margin-start metadata of an outcome. -/
def marginStartOf : Except String Valuation → Option PyFloat
  | .error _ => none
  | .ok r => r.settings.fcffMarginStart

/-- Whether a usable positive revenue is known (`revenue_last and
revenue_last > 0`). -/
def posRevenue (m : Metrics) : Bool := truthyPos (safe_optional m.revenueLast)

/-- Whether the engine aborted with a raised error. -/
def resultIsError : Except String Valuation → Bool
  | .error _ => true
  | .ok _ => false

/-- A trivial stand-in for the float power operator, used for concrete
evaluations (its value never matters on the chosen inputs). -/
def pwZero : ℚ → ℚ → PyFloat := fun _ _ => .fin 0

def cocNone : CostOfCapital := { wacc := none }

/-- A metrics payload with every field absent. -/
def mEmpty : Metrics :=
  { growthModel := "", revenueLast := none, revenueCAGR5Y := none, netDebt := none,
    sharesOutstanding := none, baseYearFcffNormalized := none, baseFcf := none,
    fcfSeries := [], nopatHistory := [], roicHistory := [], baseYear := none,
    horizonYears := none }

/-- A history with exactly one strictly-positive FCF value and no
candidate. -/
def mC3 : Metrics := { mEmpty with fcfSeries := [{ label := none, value := some (.fin 100) }] }

/-- A hypergrowth-hinted payload with a usable base FCFF and no revenue. -/
def mC4 : Metrics := { mEmpty with growthModel := "hyper", baseFcf := some (.fin 100) }

/-- Number of strictly-positive finite values in the FCF history. -/
def posHistoryCount (m : Metrics) : ℕ :=
  ((extract_fcf_values m.fcfSeries).filter (fun v => 0 < v)).length

/-- The sanitized base candidate, kept only when strictly positive (the
`candidate` of `compute_normalized_base_fcff`). -/
def posCandidateOf (m : Metrics) : Option ℚ :=
  (baseCandidateOf m).bind (fun c => if 0 < c then some c else none)

/-! # Theorems -/

/-! ## Clamp and rounding lemmas -/

theorem clampQ_le (x lo hi : ℚ) (h : lo ≤ hi) : clampQ x lo hi ≤ hi := by
  unfold clampQ
  exact max_le h (min_le_right _ _)

theorem le_clampQ (x lo hi : ℚ) : lo ≤ clampQ x lo hi := le_max_left _ _

theorem clampQ_eq_self (x lo hi : ℚ) (h1 : lo ≤ x) (h2 : x ≤ hi) : clampQ x lo hi = x := by
  unfold clampQ
  rw [min_eq_left h2, max_eq_right h1]

theorem clampQ_mono (x y lo1 lo2 hi1 hi2 : ℚ) (hx : x ≤ y) (hlo : lo1 ≤ lo2)
    (hhi : hi1 ≤ hi2) : clampQ x lo1 hi1 ≤ clampQ y lo2 hi2 := by
  unfold clampQ
  exact max_le_max hlo (min_le_min hx hhi)

theorem pyRound_le (q : ℚ) : (pyRound q : ℚ) ≤ q + 1/2 := by
  have h1 := Int.floor_le q
  have h2 := Int.lt_floor_add_one q
  simp only [pyRound]
  split_ifs <;> push_cast <;> linarith

theorem le_pyRound (q : ℚ) : q - 1/2 ≤ (pyRound q : ℚ) := by
  have h1 := Int.floor_le q
  have h2 := Int.lt_floor_add_one q
  simp only [pyRound]
  split_ifs <;> push_cast <;> linarith

/-! ## PyFloat reduction lemmas -/

theorem pyOr_some_fin_zero (q : ℚ) : pyOr (some (.fin q)) (.fin 0) = .fin q := by
  by_cases h : q = 0 <;> simp [pyOr, PyFloat.truthy, h]

theorem pyMax0_fin (q : ℚ) : pyMax0 (.fin q) = .fin (max 0 q) := by
  by_cases h : 0 < q
  · simp [pyMax0, PyFloat.lt, h, max_eq_right h.le]
  · simp [pyMax0, PyFloat.lt, h, max_eq_left (not_lt.mp h)]

theorem finOpt_clean_number (v : PyFloat) : finOpt (clean_number v) = true := by
  cases v <;> simp [clean_number, finOpt, PyFloat.isFin]

theorem finOpt_clean_number_opt (v : Option PyFloat) : finOpt (clean_number_opt v) = true := by
  cases v with
  | none => simp [clean_number_opt, finOpt]
  | some x => simpa [clean_number_opt] using finOpt_clean_number x

theorem finOpt_none : finOpt none = true := rfl

theorem finOpt_some_fin (q : ℚ) : finOpt (some (.fin q)) = true := rfl

theorem finOpt_some (x : PyFloat) : finOpt (some x) = x.isFin := rfl

theorem isFin_fin (q : ℚ) : (PyFloat.fin q).isFin = true := rfl

/-! ## C8: outlier trimming of the base-FCFF normalizer -/

/-- C8.  `compute_normalized_base_fcff` on the history
`[200e6, 195e6, 205e6, 800e6]` with no candidate: the `800e6` outlier is
trimmed (relative deviation from the median `202.5e6` exceeds 50%), and the
weighted average of the remaining entries, `1195e6/6 = 597500000/3`, lies in
`[195e6, 205e6]`. -/
theorem claim_C8 :
    compute_normalized_base_fcff [200000000, 195000000, 205000000, 800000000] none
        = some (597500000/3)
      ∧ (195000000 : ℚ) ≤ 597500000/3 ∧ (597500000 : ℚ)/3 ≤ 205000000 := by
  refine ⟨?_, by norm_num, by norm_num⟩
  norm_num [compute_normalized_base_fcff, weightedAverage, pyMedian, sortQ, insertSorted,
    List.filter, List.range_succ, List.zipWith, List.cons_ne_nil, List.map, List.length_cons,
    List.sum_cons]

/-! ## C6: the beta unlever/relever round trip -/

/-- C6, counterexample.  The round-trip law fails when the unlever clamp
binds: for beta `0.5`, D/E `10`, tax `0`, unlevering gives `0.5/11`, which is
clamped back up to `0.5`, and relevering then yields `5.5`, clamped to `2.0`
— not the original clamped beta `0.5`. -/
theorem claim_C6_counterexample :
    compute_relevered_beta
        (some (.fin (compute_unlevered_beta (some (.fin (1/2))) (some (.fin 10)) (some (.fin 0)))))
        (some (.fin 10)) (some (.fin 0)) = 2
      ∧ clampQ (1/2) BETA_MIN BETA_MAX = 1/2 ∧ (2 : ℚ) ≠ 1/2 := by
  refine ⟨?_, by norm_num [clampQ, BETA_MIN, BETA_MAX], by norm_num⟩
  norm_num [compute_unlevered_beta, compute_relevered_beta, pyOr, pyMax0, pyClamp, clampQ,
    PyFloat.truthy, PyFloat.lt, PyFloat.le, PyFloat.add, PyFloat.mul, PyFloat.div,
    BETA_MIN, BETA_MAX]

/-- C6, amended.  Unlever-then-relever with the same D/E and tax rate
returns the clamped input beta, provided the intermediate unlevered beta
stays inside the clamp bounds (the upper bound is automatic; the lower bound
`0.5 ≤ clamp(beta)/denominator` is the required hypothesis). -/
theorem claim_C6_amended (β de tax : ℚ)
    (h : BETA_MIN ≤ clampQ β BETA_MIN BETA_MAX / (1 + max 0 de * (1 - clampQ tax 0 (1/2)))) :
    compute_relevered_beta
        (some (.fin (compute_unlevered_beta (some (.fin β)) (some (.fin de)) (some (.fin tax)))))
        (some (.fin de)) (some (.fin tax))
      = clampQ β BETA_MIN BETA_MAX := by
  have hBM : BETA_MIN ≤ BETA_MAX := by norm_num [BETA_MIN, BETA_MAX]
  set b := clampQ β BETA_MIN BETA_MAX with hb
  set t := clampQ tax 0 (1/2) with ht
  set d := 1 + max 0 de * (1 - t) with hd
  have ht0 : 0 ≤ t := le_clampQ _ _ _
  have ht1 : t ≤ 1/2 := clampQ_le _ _ _ (by norm_num)
  have hmax : (0:ℚ) ≤ max 0 de := le_max_left _ _
  have hd1 : (1:ℚ) ≤ d := by nlinarith
  have hd0 : d ≠ 0 := by linarith
  have hb0 : BETA_MIN ≤ b := le_clampQ _ _ _
  have hb2 : b ≤ BETA_MAX := clampQ_le _ _ _ hBM
  have hbpos : (0:ℚ) ≤ b := le_trans (by norm_num [BETA_MIN]) hb0
  have hbd2 : b / d ≤ BETA_MAX := le_trans (div_le_self hbpos hd1) hb2
  have hdle : ¬ (d ≤ 0) := by linarith
  have hu : compute_unlevered_beta (some (.fin β)) (some (.fin de)) (some (.fin tax)) = b / d := by
    simp only [compute_unlevered_beta, Option.getD, pyOr_some_fin_zero, pyMax0_fin, pyClamp,
      PyFloat.add, PyFloat.mul, PyFloat.div, PyFloat.le, ← hb, ← ht, ← hd]
    rw [if_neg (by simpa using hdle), if_neg hd0]
    exact clampQ_eq_self _ _ _ h hbd2
  rw [hu]
  simp only [compute_relevered_beta, Option.getD, pyOr_some_fin_zero, pyMax0_fin, pyClamp,
    PyFloat.add, PyFloat.mul, ← ht, ← hd]
  rw [clampQ_eq_self _ _ _ h hbd2, div_mul_cancel₀ b hd0]
  exact clampQ_eq_self _ _ _ hb0 hb2

/-- C6, witness: a concrete instance of the amended round-trip law at beta
`1.2`, D/E `0.5`, tax `0.21`. -/
theorem claim_C6_witness :
    BETA_MIN ≤ clampQ (6/5) BETA_MIN BETA_MAX /
        (1 + max 0 (1/2 : ℚ) * (1 - clampQ (21/100) 0 (1/2)))
      ∧ compute_relevered_beta
          (some (.fin (compute_unlevered_beta (some (.fin (6/5))) (some (.fin (1/2)))
            (some (.fin (21/100)))))) (some (.fin (1/2))) (some (.fin (21/100)))
        = clampQ (6/5) BETA_MIN BETA_MAX :=
  ⟨by norm_num [clampQ, BETA_MIN, BETA_MAX],
   claim_C6_amended (6/5) (1/2) (21/100) (by norm_num [clampQ, BETA_MIN, BETA_MAX])⟩

/-! ## C9: missing vs non-finite beta in `compute_unlevered_beta` -/

theorem unlever_beta_congr (b1 b2 de tax : Option PyFloat)
    (h : pyClamp (b1.getD (.fin 1)) BETA_MIN BETA_MAX
        = pyClamp (b2.getD (.fin 1)) BETA_MIN BETA_MAX) :
    compute_unlevered_beta b1 de tax = compute_unlevered_beta b2 de tax := by
  simp only [compute_unlevered_beta, h]

/-- C9, counterexample.  A non-finite beta is not treated as the default
`1.0`: `_clamp` collapses it to the lower clamp bound `0.5`, so
`compute_unlevered_beta(inf, 0, None) = 0.5` while
`compute_unlevered_beta(1.0, 0, None) = 1.0`. -/
theorem claim_C9_counterexample :
    compute_unlevered_beta (some .pinf) (some (.fin 0)) none = 1/2
      ∧ compute_unlevered_beta (some (.fin 1)) (some (.fin 0)) none = 1
      ∧ (1/2 : ℚ) ≠ 1 := by
  refine ⟨?_, ?_, by norm_num⟩ <;>
    norm_num [compute_unlevered_beta, pyOr, pyMax0, pyClamp, clampQ, PyFloat.truthy,
      PyFloat.lt, PyFloat.le, PyFloat.add, PyFloat.mul, PyFloat.div, BETA_MIN, BETA_MAX]

/-- C9, amended.  An absent (`None`) beta defaults to `1.0`; a non-finite
beta (`nan`, `±inf`) is instead collapsed by `_clamp` to the lower clamp
bound and behaves exactly like a beta of `0.5`, for every debt-equity and
tax-rate argument. -/
theorem claim_C9_amended (de tax : Option PyFloat) :
    compute_unlevered_beta none de tax = compute_unlevered_beta (some (.fin 1)) de tax
      ∧ compute_unlevered_beta (some .nan) de tax
          = compute_unlevered_beta (some (.fin (1/2))) de tax
      ∧ compute_unlevered_beta (some .pinf) de tax
          = compute_unlevered_beta (some (.fin (1/2))) de tax
      ∧ compute_unlevered_beta (some .ninf) de tax
          = compute_unlevered_beta (some (.fin (1/2))) de tax := by
  refine ⟨?_, ?_, ?_, ?_⟩ <;>
    exact unlever_beta_congr _ _ de tax (by norm_num [pyClamp, clampQ, BETA_MIN, BETA_MAX])

/-! ## C7: scenario ordering -/

theorem parsePreset_conservative : parsePreset "conservative" = .conservative := by
  simp [parsePreset, lowerChars]

theorem parsePreset_base : parsePreset "base" = .base := by
  simp [parsePreset, lowerChars]

theorem parsePreset_optimistic : parsePreset "optimistic" = .optimistic := by
  simp [parsePreset, lowerChars]

/-- C7.  For a fixed archetype and a fixed input WACC, the scenario-resolved
WACC (shift then clamp to the scenario band, exactly as `run_dcf_v2` does it)
satisfies conservative ≥ base ≥ optimistic; and for every preset the
hypergrowth terminal-growth band lies at or above the mature band. -/
theorem claim_C7 (archetype preset : String) (w : ℚ) :
    (clampQ (w + (get_scenario_config "base" archetype).wacc_shift)
        (get_scenario_config "base" archetype).wacc_min
        (get_scenario_config "base" archetype).wacc_max
      ≤ clampQ (w + (get_scenario_config "conservative" archetype).wacc_shift)
          (get_scenario_config "conservative" archetype).wacc_min
          (get_scenario_config "conservative" archetype).wacc_max)
      ∧ (clampQ (w + (get_scenario_config "optimistic" archetype).wacc_shift)
          (get_scenario_config "optimistic" archetype).wacc_min
          (get_scenario_config "optimistic" archetype).wacc_max
        ≤ clampQ (w + (get_scenario_config "base" archetype).wacc_shift)
            (get_scenario_config "base" archetype).wacc_min
            (get_scenario_config "base" archetype).wacc_max)
      ∧ ((get_scenario_config preset "mature").g_terminal_min
          ≤ (get_scenario_config preset "hypergrowth").g_terminal_min)
      ∧ ((get_scenario_config preset "mature").g_terminal_max
          ≤ (get_scenario_config preset "hypergrowth").g_terminal_max) := by
  have hg : (get_scenario_config preset "mature").g_terminal_min
        ≤ (get_scenario_config preset "hypergrowth").g_terminal_min
      ∧ (get_scenario_config preset "mature").g_terminal_max
        ≤ (get_scenario_config preset "hypergrowth").g_terminal_max := by
    cases hp : parsePreset preset <;> simp [get_scenario_config, hp] <;> norm_num
  refine ⟨?_, ?_, hg.1, hg.2⟩ <;>
  · by_cases h : archetype = "hypergrowth" <;>
      simp [get_scenario_config, h, parsePreset_conservative, parsePreset_base,
        parsePreset_optimistic] <;>
      exact clampQ_mono _ _ _ _ _ _ (by linarith) (by norm_num) (by norm_num)

/-! ## C1: the mature growth path -/

theorem interp_le_left (a b s x : ℚ) (hba : b ≤ a) (hs : 0 < s) (hx : 0 ≤ x) :
    a + (b - a) * (x / s) ≤ a := by
  have h0 : 0 ≤ x / s := div_nonneg hx hs.le
  nlinarith

theorem interp_le_interp (a b s x1 x2 : ℚ) (hba : b ≤ a) (hs : 0 < s) (hx : x1 ≤ x2) :
    a + (b - a) * (x2 / s) ≤ a + (b - a) * (x1 / s) := by
  have h1 : x1 / s ≤ x2 / s := by gcongr
  nlinarith [mul_le_mul_of_nonpos_left h1 (by linarith : b - a ≤ 0)]

theorem spanPos (u v : ℤ) : (0 : ℚ) < ((max 1 (u - v) : ℤ) : ℚ) := by
  have h : (1 : ℤ) ≤ max 1 (u - v) := le_max_left _ _
  exact_mod_cast lt_of_lt_of_le Int.zero_lt_one h

/-- Adjacent years of the mature ramp never increase when
`gTerminal ≤ gMid ≤ gShort`. -/
theorem growthRateAt_succ_le (p1 p2 h : ℤ) (gs gm gt : ℚ)
    (hp12 : p1 ≤ p2) (hmid : gm ≤ gs) (hterm : gt ≤ gm) (y : ℤ) :
    growthRateAt p1 p2 h gs gm gt (y + 1) ≤ growthRateAt p1 p2 h gs gm gt y := by
  have hs2 := spanPos p2 p1
  have hs3 := spanPos h p2
  unfold growthRateAt
  by_cases hA : y + 1 ≤ p1
  · rw [if_pos hA, if_pos (show y ≤ p1 by omega)]
  · rw [if_neg hA]
    by_cases hB : y + 1 ≤ p2
    · rw [if_pos hB]
      by_cases hC : y ≤ p1
      · rw [if_pos hC]
        refine interp_le_left gs gm _ _ hmid hs2 ?_
        have hcst : (p1 : ℚ) ≤ ((y + 1 : ℤ) : ℚ) := by exact_mod_cast (show p1 ≤ y + 1 by omega)
        linarith
      · rw [if_neg hC, if_pos (show y ≤ p2 by omega)]
        refine interp_le_interp gs gm _ _ _ hmid hs2 ?_
        have hcst : ((y : ℤ) : ℚ) ≤ ((y + 1 : ℤ) : ℚ) := by
          exact_mod_cast (show y ≤ y + 1 by omega)
        linarith
    · rw [if_neg hB]
      by_cases hC : y ≤ p1
      · rw [if_pos hC]
        refine le_trans (interp_le_left gm gt _ _ hterm hs3 ?_) hmid
        have hcst : (p2 : ℚ) ≤ ((y + 1 : ℤ) : ℚ) := by exact_mod_cast (show p2 ≤ y + 1 by omega)
        linarith
      · rw [if_neg hC]
        by_cases hD : y ≤ p2
        · rw [if_pos hD]
          have hy : y = p2 := by omega
          subst hy
          have h21 : (1 : ℤ) ≤ y - p1 := by omega
          rw [max_eq_right h21]
          have hcast : ((y - p1 : ℤ) : ℚ) = (y : ℚ) - (p1 : ℚ) := by push_cast; ring
          have hne : ((y : ℚ) - (p1 : ℚ)) ≠ 0 := by
            have hlt : (p1 : ℚ) < (y : ℚ) := by exact_mod_cast (show p1 < y by omega)
            linarith
          rw [hcast, div_self hne]
          have hgm : gs + (gm - gs) * 1 = gm := by ring
          rw [hgm]
          refine interp_le_left gm gt _ _ hterm hs3 ?_
          have hcst : (y : ℚ) ≤ ((y + 1 : ℤ) : ℚ) := by
            exact_mod_cast (show y ≤ y + 1 by omega)
          linarith
        · rw [if_neg hD]
          refine interp_le_interp gm gt _ _ _ hterm hs3 ?_
          have hcst : ((y : ℤ) : ℚ) ≤ ((y + 1 : ℤ) : ℚ) := by
            exact_mod_cast (show y ≤ y + 1 by omega)
          linarith

/-- The last year of the ramp hits the terminal rate exactly once phase 2
ends strictly before the horizon. -/
theorem growthRateAt_at_horizon (p1 p2 h : ℤ) (gs gm gt : ℚ)
    (hp12 : p1 ≤ p2) (hp2 : p2 < h) :
    growthRateAt p1 p2 h gs gm gt h = gt := by
  have h1 : ¬ (h ≤ p1) := by omega
  have h2 : ¬ (h ≤ p2) := by omega
  have hmax : max 1 (h - p2) = h - p2 := max_eq_right (by omega)
  have hne : ((h : ℚ) - (p2 : ℚ)) ≠ 0 := by
    have : (0 : ℚ) < (h : ℚ) - (p2 : ℚ) := by exact_mod_cast by omega
    linarith
  unfold growthRateAt
  rw [if_neg h1, if_neg h2, hmax]
  push_cast
  rw [div_self hne]
  ring

theorem rates_head (p1 p2 h : ℤ) (gs gm gt : ℚ) (n : ℕ) (hn : n ≠ 0) (hp1 : 1 ≤ p1) :
    (((List.range n).map (fun (i : ℕ) => growthRateAt p1 p2 h gs gm gt ((i : ℤ) + 1)))).head?
      = some gs := by
  obtain ⟨m, rfl⟩ := Nat.exists_eq_succ_of_ne_zero hn
  rw [List.range_succ_eq_map]
  simp [growthRateAt, hp1]

theorem rates_last (p1 p2 h : ℤ) (gs gm gt : ℚ) (n : ℕ) (hn : n ≠ 0)
    (hhn : (n : ℤ) = h) (hp12 : p1 ≤ p2) (hp2 : p2 < h) :
    (((List.range n).map (fun (i : ℕ) => growthRateAt p1 p2 h gs gm gt ((i : ℤ) + 1)))).getLast?
      = some gt := by
  rw [List.getLast?_eq_getElem?]
  simp only [List.length_map, List.length_range]
  rw [List.getElem?_map, List.getElem?_range (by omega), Option.map_some']
  have harg : ((n - 1 : ℕ) : ℤ) + 1 = h := by omega
  rw [harg, growthRateAt_at_horizon p1 p2 h gs gm gt hp12 hp2]

theorem rates_pairwise (p1 p2 h : ℤ) (gs gm gt : ℚ) (n : ℕ)
    (hp12 : p1 ≤ p2) (hmid : gm ≤ gs) (hterm : gt ≤ gm) :
    (((List.range n).map (fun (i : ℕ) => growthRateAt p1 p2 h gs gm gt ((i : ℤ) + 1)))).Pairwise
      (fun a b => b ≤ a) := by
  have hanti : Antitone (fun i : ℕ => growthRateAt p1 p2 h gs gm gt ((i : ℤ) + 1)) := by
    apply antitone_nat_of_succ_le
    intro m
    have hstep := growthRateAt_succ_le p1 p2 h gs gm gt hp12 hmid hterm ((m : ℤ) + 1)
    have harg : ((m + 1 : ℕ) : ℤ) + 1 = ((m : ℤ) + 1) + 1 := by push_cast; ring
    simpa [harg] using hstep
  rw [List.pairwise_map]
  exact (List.pairwise_lt_range n).imp (fun hij => hanti (le_of_lt hij))

theorem buildP1_bounds (h : ℤ) (hh : 1 ≤ h) :
    1 ≤ min h (max 1 (pyRound (3 * (h : ℚ) / 10)))
      ∧ min h (max 1 (pyRound (3 * (h : ℚ) / 10))) ≤ h := by
  constructor
  · exact le_min hh (le_max_left _ _)
  · exact min_le_left _ _

theorem buildP12 (h p1 : ℤ) (hp1 : p1 ≤ h) :
    p1 ≤ min h (max (p1 + 1) (pyRound (7 * (h : ℚ) / 10))) :=
  le_min hp1 (le_trans (by omega) (le_max_left _ _))

theorem buildP2_lt (h : ℤ) (hh : 3 ≤ h) :
    min h (max (min h (max 1 (pyRound (3 * (h : ℚ) / 10))) + 1) (pyRound (7 * (h : ℚ) / 10)))
      < h := by
  have hr1 : (10 : ℚ) * (pyRound (3 * (h : ℚ) / 10) : ℚ) ≤ 3 * h + 5 := by
    have := pyRound_le (3 * (h : ℚ) / 10)
    linarith
  have hr2 : (10 : ℚ) * (pyRound (7 * (h : ℚ) / 10) : ℚ) ≤ 7 * h + 5 := by
    have := pyRound_le (7 * (h : ℚ) / 10)
    linarith
  have hr1' : 10 * pyRound (3 * (h : ℚ) / 10) ≤ 3 * h + 5 := by exact_mod_cast hr1
  have hr2' : 10 * pyRound (7 * (h : ℚ) / 10) ≤ 7 * h + 5 := by exact_mod_cast hr2
  omega

/-- C1, counterexample.  At horizon 1 (with no auxiliary signals and a
terminal target of 10%) the path is the single flat short rate `0.02`, so its
last entry is not (even approximately) the terminal rate: it misses by 8
percentage points. -/
theorem claim_C1_counterexample :
    (build_growth_path 1 (1/10) none none none).rates.getLast? = some (1/50)
      ∧ (build_growth_path 1 (1/10) none none none).gTerminal = 1/10
      ∧ (1 : ℚ)/10 - 1/50 > 1/20 := by
  refine ⟨?_, ?_, by norm_num⟩ <;>
    norm_num [build_growth_path, growthRateAt, pyRound, List.range_succ, List.filterMap]

/-- C1, amended.  For every horizon and auxiliary-signal combination the
mature path has length `max 1 horizon` (equal to the horizon whenever the
horizon is at least 1), starts at the resolved short rate, and is
non-increasing whenever `gShort ≥ gMid ≥ gTerminal`; the last entry equals
the terminal rate exactly for horizons of at least 3 (at horizon 1 the path
ends at the short rate, at horizon 2 at the mid rate). -/
theorem claim_C1_amended (horizon_years : ℤ) (g_terminal : ℚ) (fc rc rg : Option PyFloat) :
    (1 ≤ horizon_years →
        (build_growth_path horizon_years g_terminal fc rc rg).rates.length
          = horizon_years.toNat)
      ∧ (build_growth_path horizon_years g_terminal fc rc rg).rates.head?
          = some (build_growth_path horizon_years g_terminal fc rc rg).gShort
      ∧ (3 ≤ horizon_years →
          (build_growth_path horizon_years g_terminal fc rc rg).rates.getLast?
            = some (build_growth_path horizon_years g_terminal fc rc rg).gTerminal)
      ∧ ((build_growth_path horizon_years g_terminal fc rc rg).gMid
            ≤ (build_growth_path horizon_years g_terminal fc rc rg).gShort →
          (build_growth_path horizon_years g_terminal fc rc rg).gTerminal
            ≤ (build_growth_path horizon_years g_terminal fc rc rg).gMid →
          (build_growth_path horizon_years g_terminal fc rc rg).rates.Pairwise
            (fun a b => b ≤ a)) := by
  simp only [build_growth_path]
  set h : ℤ := max 1 horizon_years with hdef
  have hh : 1 ≤ h := le_max_left _ _
  obtain ⟨hp1a, hp1b⟩ := buildP1_bounds h hh
  set p1 : ℤ := min h (max 1 (pyRound (3 * (h : ℚ) / 10))) with hp1def
  set p2 : ℤ := min h (max (p1 + 1) (pyRound (7 * (h : ℚ) / 10))) with hp2def
  have hp12 : p1 ≤ p2 := buildP12 h p1 hp1b
  have hn0 : h.toNat ≠ 0 := by omega
  refine ⟨?_, ?_, ?_, ?_⟩
  · intro hy
    simp only [List.length_map, List.length_range]
    omega
  · exact rates_head p1 p2 h _ _ _ h.toNat hn0 hp1a
  · intro hy
    have hh3 : 3 ≤ h := by omega
    exact rates_last p1 p2 h _ _ _ h.toNat hn0 (by omega) hp12
      (by rw [hp2def, hp1def]; exact buildP2_lt h hh3)
  · intro hmid hterm
    exact rates_pairwise p1 p2 h _ _ _ h.toNat hp12 hmid hterm

/-- C1, witness: the amended properties at horizon 10, terminal rate 3%, and
signals 8%, 5%, 6% (short rate = median 6%, mid rate 4.5%). -/
theorem claim_C1_witness :
    1 ≤ (10 : ℤ) ∧ 3 ≤ (10 : ℤ)
      ∧ ((build_growth_path 10 (3/100) (some (.fin (2/25))) (some (.fin (1/20)))
            (some (.fin (3/50)))).gMid
          ≤ (build_growth_path 10 (3/100) (some (.fin (2/25))) (some (.fin (1/20)))
              (some (.fin (3/50)))).gShort)
      ∧ ((build_growth_path 10 (3/100) (some (.fin (2/25))) (some (.fin (1/20)))
            (some (.fin (3/50)))).gTerminal
          ≤ (build_growth_path 10 (3/100) (some (.fin (2/25))) (some (.fin (1/20)))
              (some (.fin (3/50)))).gMid)
      ∧ (build_growth_path 10 (3/100) (some (.fin (2/25))) (some (.fin (1/20)))
          (some (.fin (3/50)))).rates.length = (10 : ℤ).toNat
      ∧ (build_growth_path 10 (3/100) (some (.fin (2/25))) (some (.fin (1/20)))
          (some (.fin (3/50)))).rates.head?
          = some (build_growth_path 10 (3/100) (some (.fin (2/25))) (some (.fin (1/20)))
              (some (.fin (3/50)))).gShort
      ∧ (build_growth_path 10 (3/100) (some (.fin (2/25))) (some (.fin (1/20)))
          (some (.fin (3/50)))).rates.getLast?
          = some (build_growth_path 10 (3/100) (some (.fin (2/25))) (some (.fin (1/20)))
              (some (.fin (3/50)))).gTerminal
      ∧ (build_growth_path 10 (3/100) (some (.fin (2/25))) (some (.fin (1/20)))
          (some (.fin (3/50)))).rates.Pairwise (fun a b => b ≤ a) := by
  have hmid : (build_growth_path 10 (3/100) (some (.fin (2/25))) (some (.fin (1/20)))
      (some (.fin (3/50)))).gMid
      ≤ (build_growth_path 10 (3/100) (some (.fin (2/25))) (some (.fin (1/20)))
          (some (.fin (3/50)))).gShort := by
    norm_num [build_growth_path, pyMedian, sortQ, insertSorted, clampQ, List.filterMap]
  have hterm : (build_growth_path 10 (3/100) (some (.fin (2/25))) (some (.fin (1/20)))
      (some (.fin (3/50)))).gTerminal
      ≤ (build_growth_path 10 (3/100) (some (.fin (2/25))) (some (.fin (1/20)))
          (some (.fin (3/50)))).gMid := by
    norm_num [build_growth_path, pyMedian, sortQ, insertSorted, clampQ, List.filterMap]
  have H := claim_C1_amended 10 (3/100) (some (.fin (2/25))) (some (.fin (1/20)))
    (some (.fin (3/50)))
  exact ⟨by norm_num, by norm_num, hmid, hterm, H.1 (by norm_num), H.2.1,
    H.2.2.1 (by norm_num), H.2.2.2 hmid hterm⟩

/-! ## C2: no non-finite value in any returned valuation -/

theorem isFin_add {a b : PyFloat} (ha : a.isFin = true) (hb : b.isFin = true) :
    (a.add b).isFin = true := by
  cases a <;> cases b <;> simp_all [PyFloat.add, PyFloat.isFin]

theorem isFin_sub {a b : PyFloat} (ha : a.isFin = true) (hb : b.isFin = true) :
    (a.sub b).isFin = true := by
  cases a <;> cases b <;> simp_all [PyFloat.sub, PyFloat.neg, PyFloat.add, PyFloat.isFin]

theorem isFin_div_fin {a : PyFloat} {q : ℚ} (ha : a.isFin = true) (hq : q ≠ 0) :
    (a.div (.fin q)).isFin = true := by
  cases a <;> simp_all [PyFloat.div, PyFloat.isFin]

theorem isFin_pyOr_zero {v : Option PyFloat} (h : finOpt v = true) :
    (pyOr v (.fin 0)).isFin = true := by
  cases v with
  | none => rfl
  | some x =>
    cases x with
    | fin q => by_cases hq : q = 0 <;> simp [pyOr, PyFloat.truthy, hq, PyFloat.isFin]
    | pinf => simp [finOpt, PyFloat.isFin] at h
    | ninf => simp [finOpt, PyFloat.isFin] at h
    | nan => simp [finOpt, PyFloat.isFin] at h

theorem finOpt_map_fin (o : Option ℚ) : finOpt (o.map .fin) = true := by
  cases o <;> simp [finOpt, PyFloat.isFin]

theorem projectLoop_all_finite (w : ℚ) (b : Option ℤ) (gp : List ℚ) :
    ∀ (fc : ℚ) (idx : ℕ), ((projectLoop w b gp fc idx).1).all forecastYearFinite = true := by
  induction gp with
  | nil => intro fc idx; rfl
  | cons g rest ih =>
    intro fc idx
    simp only [projectLoop, List.all_cons, Bool.and_eq_true]
    exact ⟨by simp [forecastYearFinite, finOpt_clean_number, finOpt_none], ih _ _⟩

theorem projectLoop_length (w : ℚ) (b : Option ℤ) (gp : List ℚ) :
    ∀ (fc : ℚ) (idx : ℕ), ((projectLoop w b gp fc idx).1).length = gp.length := by
  induction gp with
  | nil => intro fc idx; rfl
  | cons g rest ih =>
    intro fc idx
    simp only [projectLoop, List.length_cons]
    rw [ih]

theorem hyperLoop_all_finite (w : ℚ) (b : Option ℤ) (mp : List ℚ) (gp : List ℚ) :
    ∀ (rev : ℚ) (idx : ℕ), ((hyperLoop w b mp gp rev idx).1).all forecastYearFinite = true := by
  induction gp with
  | nil => intro rev idx; rfl
  | cons g rest ih =>
    intro rev idx
    simp only [hyperLoop, List.all_cons, Bool.and_eq_true]
    exact ⟨by simp [forecastYearFinite, finOpt_clean_number, finOpt_none], ih _ _⟩

theorem hyperLoop_length (w : ℚ) (b : Option ℤ) (mp : List ℚ) (gp : List ℚ) :
    ∀ (rev : ℚ) (idx : ℕ), ((hyperLoop w b mp gp rev idx).1).length = gp.length := by
  induction gp with
  | nil => intro rev idx; rfl
  | cons g rest ih =>
    intro rev idx
    simp only [hyperLoop, List.length_cons]
    rw [ih]

theorem project_fcff_forecast_finite (bf : ℚ) (gp : List ℚ) (w g : ℚ) (byr : Option ℤ) :
    ((project_fcff bf gp w g byr).1).all forecastYearFinite = true := by
  by_cases hlen : gp.length = 0
  · simp [project_fcff, hlen]
  · simp only [project_fcff, if_neg hlen]
    exact projectLoop_all_finite _ _ _ _ _

theorem project_fcff_terminal_finite (bf : ℚ) (gp : List ℚ) (w g : ℚ) (byr : Option ℤ) :
    terminalFinite (project_fcff bf gp w g byr).2.1 = true := by
  by_cases hlen : gp.length = 0
  · simp [project_fcff, hlen, terminalFinite, finOpt_some_fin, finOpt_none]
  · simp only [project_fcff, if_neg hlen]
    simp [terminalFinite, finOpt_clean_number, finOpt_clean_number_opt, finOpt_none]

theorem project_fcff_length (bf : ℚ) (gp : List ℚ) (w g : ℚ) (byr : Option ℤ) :
    ((project_fcff bf gp w g byr).1).length = gp.length := by
  by_cases hlen : gp.length = 0
  · simp [project_fcff, hlen]
  · simp only [project_fcff, if_neg hlen]
    exact projectLoop_length _ _ _ _ _

theorem project_hyper_ok {br : Option ℚ} {gp mp : List ℚ} {w g : ℚ} {byr : Option ℤ}
    {out : List ForecastYear × TerminalSummary × ℚ × HyperMeta}
    (h : project_fcff_hypergrowth br gp mp w g byr = .ok out) :
    out.1.all forecastYearFinite = true ∧ terminalFinite out.2.1 = true
      ∧ metaFinite out.2.2.2 = true ∧ out.1.length = gp.length := by
  unfold project_fcff_hypergrowth at h
  split at h
  · simp at h
  · split at h
    · simp at h
    · split at h
      all_goals simp only [Except.ok.injEq] at h
      all_goals subst h
      · refine ⟨rfl, by simp [terminalFinite, finOpt_some_fin, finOpt_none], ?_, ?_⟩
        · simp [metaFinite, finOpt_none]
        · simp only [List.length_nil]
          omega
      · refine ⟨hyperLoop_all_finite _ _ _ _ _ _, ?_, ?_, hyperLoop_length _ _ _ _ _ _⟩
        · simp [terminalFinite, finOpt_clean_number, finOpt_clean_number_opt, finOpt_none]
        · simp [metaFinite, finOpt_clean_number_opt]

theorem attempt_finish_some {gs gm : Option ℚ} {bp gt : ℚ}
    {res : Except String (List ForecastYear × TerminalSummary × ℚ × HyperMeta)}
    {b0 : BranchOut} (h : attempt_finish gs gm bp gt res = some b0) :
    ∃ out, res = .ok out
      ∧ b0 = { forecast := out.1, terminal := out.2.1, pvSum := out.2.2.1, meta := out.2.2.2,
               gShort := gs, gMid := gm, baseProj := bp, gTerm := gt } := by
  cases res with
  | error e => simp [attempt_finish] at h
  | ok out =>
    refine ⟨out, rfl, ?_⟩
    simp only [attempt_finish, Option.some.injEq] at h
    exact h.symm

theorem attempt_finite {cfg : ScenarioConfig} {eff : ℤ} {rc rl : Option ℚ} {bf w g : ℚ}
    {byr : Option ℤ} {b0 : BranchOut}
    (h : attempt_hypergrowth cfg eff rc rl bf w g byr = some b0) :
    branchFinite b0 = true := by
  unfold attempt_hypergrowth at h
  simp only [] at h
  split at h
  · simp at h
  · split at h
    · simp at h
    · obtain ⟨out, heq, rfl⟩ := attempt_finish_some h
      obtain ⟨hfc, hts, hmeta, _⟩ := project_hyper_ok heq
      simp [branchFinite, hfc, hts, hmeta]

theorem attempt_length {cfg : ScenarioConfig} {eff : ℤ} {rc rl : Option ℚ} {bf w g : ℚ}
    {byr : Option ℤ} {b0 : BranchOut}
    (h : attempt_hypergrowth cfg eff rc rl bf w g byr = some b0) :
    b0.forecast.length = (max 1 eff).toNat := by
  unfold attempt_hypergrowth at h
  simp only [] at h
  split at h
  · simp at h
  · split at h
    · simp at h
    · obtain ⟨out, heq, rfl⟩ := attempt_finish_some h
      obtain ⟨_, _, _, hlen⟩ := project_hyper_ok heq
      simpa [build_hypergrowth_revenue_path] using hlen

theorem mature_branch_finite {cfg : ScenarioConfig} {eff : ℤ} {g : ℚ} {fcC : Option PyFloat}
    {rc rg : Option ℚ} {bf w : ℚ} {byr : Option ℤ} :
    branchFinite (mature_branch cfg eff g fcC rc rg bf w byr) = true := by
  simp only [mature_branch, branchFinite, metaFinite]
  simp [project_fcff_forecast_finite, project_fcff_terminal_finite, finOpt]

theorem mature_branch_length {cfg : ScenarioConfig} {eff : ℤ} {g : ℚ} {fcC : Option PyFloat}
    {rc rg : Option ℚ} {bf w : ℚ} {byr : Option ℤ} :
    (mature_branch cfg eff g fcC rc rg bf w byr).forecast.length = (max 1 eff).toNat := by
  simp only [mature_branch]
  rw [project_fcff_length]
  simp [build_growth_path]

theorem valuation_assemble_finite (branch : BranchOut) (effH : ℤ) (w bfq nd sh : ℚ)
    (s1 s2 : String) (rcagr : Option ℚ) (hb : branchFinite branch = true) :
    valuationFinite
      { settings :=
          { horizonYears := effH, horizonYearsUsed := effH,
            gTerminal := .fin branch.gTerm, gTerminalUsed := .fin branch.gTerm,
            engineVersion := "v2", wacc := .fin w, waccUsed := .fin w,
            growthShort := branch.gShort.map .fin, growthMid := branch.gMid.map .fin,
            baseFcffNormalized := .fin bfq, baseFcffProjectionStart := .fin branch.baseProj,
            scenarioPreset := s1, archetype := s2,
            revenueCAGR5YUsed := rcagr.map .fin,
            fcffMarginStart := branch.meta.fcffMarginStart,
            fcffMarginTerminal := branch.meta.fcffMarginTerminal,
            growthPhase1Rev := branch.meta.growthPhase1Rev,
            growthPhase2Rev := branch.meta.growthPhase2Rev },
        fcffForecast := branch.forecast,
        terminalValue := branch.terminal,
        enterpriseValue := (PyFloat.fin branch.pvSum).add (pyOr branch.terminal.pvTv (.fin 0)),
        equityValue := ((PyFloat.fin branch.pvSum).add
          (pyOr branch.terminal.pvTv (.fin 0))).sub (.fin nd),
        impliedSharePrice := if 0 < sh then
            some ((((PyFloat.fin branch.pvSum).add
              (pyOr branch.terminal.pvTv (.fin 0))).sub (.fin nd)).div (.fin sh))
          else none,
        baseFcff := .fin bfq } = true := by
  have hb' := hb
  simp only [branchFinite, Bool.and_eq_true] at hb'
  obtain ⟨⟨hfc, hts⟩, hmeta⟩ := hb'
  have hts' := hts
  simp only [terminalFinite, Bool.and_eq_true] at hts'
  obtain ⟨⟨⟨⟨hft, hgt⟩, hre⟩, htv⟩, hpv⟩ := hts'
  have hmeta' := hmeta
  simp only [metaFinite, Bool.and_eq_true] at hmeta'
  obtain ⟨⟨⟨hm1, hm2⟩, hm3⟩, hm4⟩ := hmeta'
  have hev : ((PyFloat.fin branch.pvSum).add (pyOr branch.terminal.pvTv (.fin 0))).isFin
      = true := isFin_add rfl (isFin_pyOr_zero hpv)
  have heqv : (((PyFloat.fin branch.pvSum).add
      (pyOr branch.terminal.pvTv (.fin 0))).sub (.fin nd)).isFin = true := isFin_sub hev rfl
  by_cases hsh : 0 < sh
  · have himp : ((((PyFloat.fin branch.pvSum).add
        (pyOr branch.terminal.pvTv (.fin 0))).sub (.fin nd)).div (.fin sh)).isFin = true :=
      isFin_div_fin heqv (ne_of_gt hsh)
    simp [valuationFinite, settingsFinite, isFin_fin, finOpt_some, finOpt_none, hfc, hts,
      hm1, hm2, hm3, hm4, finOpt_map_fin, hev, heqv, hsh, himp]
  · simp [valuationFinite, settingsFinite, isFin_fin, finOpt_some, finOpt_none, hfc, hts,
      hm1, hm2, hm3, hm4, finOpt_map_fin, hev, heqv, hsh]

/-- C2.  For every input — including inputs whose numeric fields hold `nan`
or infinities — a returned valuation contains only finite numbers or absent
values: no `nan` or infinity ever appears in any settings echo, forecast
entry, terminal-value field, or headline value.  (Machine-double overflow is
outside the model.) -/
theorem claim_C2 (pw : ℚ → ℚ → PyFloat) (m : Metrics) (coc : CostOfCapital) (h : ℤ)
    (g : Option PyFloat) (p : String) :
    resultFinite (run_dcf_v2 pw m coc h g p) = true := by
  cases hbase : baseFcffOf m with
  | none => simp [run_dcf_v2, hbase, resultFinite]
  | some b =>
    simp only [run_dcf_v2, hbase, resultFinite]
    apply valuation_assemble_finite
    split
    · rename_i b0 hb0
      split at hb0
      · exact attempt_finite hb0
      · simp at hb0
    · exact mature_branch_finite

/-! ## C3: the no-base-data abort condition -/

theorem zipWith_weights_sum_nonneg (l : List ℚ) :
    ∀ (ws : List ℕ), (∀ v ∈ l, 0 ≤ v) →
      0 ≤ (List.zipWith (fun v (w : ℕ) => v * (w : ℚ)) l ws).sum := by
  induction l with
  | nil => intro ws _; simp
  | cons v l ih =>
    intro ws hpos
    cases ws with
    | nil => simp
    | cons w ws' =>
      simp only [List.zipWith_cons_cons, List.sum_cons]
      have h1 : 0 ≤ v := hpos v (by simp)
      have h2 := ih ws' (fun x hx => hpos x (by simp [hx]))
      have h3 : (0:ℚ) ≤ v * w := mul_nonneg h1 (by positivity)
      linarith

theorem weightedAverage_pos (t : List ℚ) (hne : t ≠ []) (hpos : ∀ v ∈ t, 0 < v) :
    0 < weightedAverage t := by
  obtain ⟨v, l, rfl⟩ := List.exists_cons_of_ne_nil hne
  unfold weightedAverage
  apply div_pos
  · rw [List.length_cons, List.range_succ_eq_map, List.map_cons, List.map_map]
    simp only [List.zipWith_cons_cons, List.sum_cons, Nat.sub_zero]
    have h1 : 0 < v := hpos v (by simp)
    have h2 := zipWith_weights_sum_nonneg l
      (List.map ((fun i => l.length + 1 - i) ∘ fun x => x + 1) (List.range l.length))
      (fun x hx => (hpos x (by simp [hx])).le)
    have h3 : (0:ℚ) < v * ((l.length + 1 : ℕ) : ℚ) := by positivity
    linarith
  · apply List.sum_pos
    · intro x hx
      simp only [List.mem_map, List.mem_range] at hx
      obtain ⟨w, ⟨i, hi, rfl⟩, rfl⟩ := hx
      have hpos' : 0 < (v :: l).length - i := by simp at hi ⊢; omega
      exact_mod_cast hpos'
    · intro hcontra
      have := congrArg List.length hcontra
      simp at this

theorem pos_of_bind_some {cand : Option ℚ} {x : ℚ}
    (h : cand.bind (fun c => if 0 < c then some c else none) = some x) : 0 < x := by
  cases cand with
  | none => simp at h
  | some c =>
    by_cases hc : 0 < c
    · simp [hc] at h
      exact h ▸ hc
    · simp [hc] at h

theorem normalized_none_iff (values : List ℚ) (cand : Option ℚ) :
    compute_normalized_base_fcff values cand = none
      ↔ (cand.bind (fun c => if 0 < c then some c else none) = none
          ∧ (values.filter (fun v => 0 < v)).length < 2) := by
  unfold compute_normalized_base_fcff
  simp only []
  set candidate := cand.bind (fun c => if 0 < c then some c else none) with hcand
  set valid : List ℚ := values.filter (fun v => 0 < v) ++ candidate.toList with hvalid
  by_cases hlen : valid.length < 2
  · rw [if_pos hlen]
    constructor
    · intro hc
      refine ⟨hc, ?_⟩
      rw [hvalid, hc] at hlen
      simpa using hlen
    · exact fun hc => hc.1
  · rw [if_neg hlen]
    have hvpos : ∀ v ∈ valid, 0 < v := by
      intro v hv
      rw [hvalid] at hv
      rcases List.mem_append.mp hv with hmem | hmem
      · have h' := (List.mem_filter.mp hmem).2
        simpa using h'
      · cases hb : candidate with
        | none =>
          rw [hb] at hmem
          simp at hmem
        | some x =>
          rw [hb] at hmem
          simp only [Option.toList_some, List.mem_singleton] at hmem
          subst hmem
          exact pos_of_bind_some (hcand.symm.trans hb)
    set recent := valid.take 5 with hrecent
    have hrecsub : recent ⊆ valid := hrecent ▸ List.take_subset _ _
    have hrecne : recent ≠ [] := by
      have h2 : valid ≠ [] := by
        intro h0
        rw [h0] at hlen
        simp at hlen
      rw [hrecent]
      simp [List.take_eq_nil_iff, h2]
    set med := pyMedian recent with hmed
    set t1 := if med = 0 then recent else recent.filter (fun v => |v - med| / |med| ≤ 1/2)
      with ht1
    set t := if t1 = [] then recent else t1 with ht
    have htsub : t ⊆ recent := by
      rw [ht]
      split_ifs with h1
      · exact fun x hx => hx
      · rw [ht1]
        split_ifs with h2
        · exact fun x hx => hx
        · exact fun x hx => (List.mem_filter.mp hx).1
    have htne : t ≠ [] := by
      rw [ht]
      split_ifs with h1
      · exact hrecne
      · exact h1
    have hn : 0 < weightedAverage t :=
      weightedAverage_pos t htne (fun v hv => hvpos v (hrecsub (htsub hv)))
    rw [if_neg (not_le.mpr hn)]
    constructor
    · intro hc
      exact absurd hc (by simp)
    · rintro ⟨hc, hl⟩
      exfalso
      apply hlen
      rw [hvalid, hc]
      simpa using hl

/-- C3, counterexample.  The abort is not limited to histories with no
strictly-positive value: a history holding exactly one positive finite value
(and no candidate) also aborts with `no_base_fcf`, because the candidate
pool stays below two entries. -/
theorem claim_C3_counterexample :
    run_dcf_v2 pwZero mC3 cocNone 10 none "base" = .error "no_base_fcf"
      ∧ (100 : ℚ) ∈ extract_fcf_values mC3.fcfSeries ∧ (0 : ℚ) < 100 := by
  refine ⟨?_, ?_, by norm_num⟩
  · have hb : baseFcffOf mC3 = none := by
      norm_num [baseFcffOf, baseCandidateOf, compute_normalized_base_fcff, extract_fcf_values,
        safe_optional, mC3, mEmpty, List.filterMap]
    simp [run_dcf_v2, hb]
  · norm_num [extract_fcf_values, mC3, mEmpty, List.filterMap]

/-- C3, amended.  `run_dcf_v2` aborts exactly when the sanitized base
candidate is not positive and the history holds fewer than two
strictly-positive finite values (so a single positive history value with no
candidate still aborts); every abort carries the stable code
`no_base_fcf`. -/
theorem claim_C3_amended (pw : ℚ → ℚ → PyFloat) (m : Metrics) (coc : CostOfCapital) (h : ℤ)
    (g : Option PyFloat) (p : String) :
    (resultIsError (run_dcf_v2 pw m coc h g p) = true
        ↔ (posCandidateOf m = none ∧ posHistoryCount m < 2))
      ∧ errorCodeOk (run_dcf_v2 pw m coc h g p) := by
  have hiff := normalized_none_iff (extract_fcf_values m.fcfSeries) (baseCandidateOf m)
  cases hbase : baseFcffOf m with
  | none =>
    refine ⟨⟨fun _ => hiff.mp hbase, fun _ => ?_⟩, ?_⟩
    · simp [run_dcf_v2, hbase, resultIsError]
    · simp [run_dcf_v2, hbase, errorCodeOk]
  | some b =>
    refine ⟨⟨fun habs => ?_, fun hrhs => ?_⟩, ?_⟩
    · simp [run_dcf_v2, hbase, resultIsError] at habs
    · exfalso
      have hcontra : baseFcffOf m = none := hiff.mpr hrhs
      rw [hbase] at hcontra
      exact absurd hcontra (by simp)
    · simp [run_dcf_v2, hbase, errorCodeOk]

/-- C3, witness: the all-empty metrics payload satisfies both abort
conditions and indeed aborts with the stable code. -/
theorem claim_C3_witness :
    posCandidateOf mEmpty = none ∧ posHistoryCount mEmpty < 2
      ∧ resultIsError (run_dcf_v2 pwZero mEmpty cocNone 10 none "base") = true
      ∧ errorCodeOk (run_dcf_v2 pwZero mEmpty cocNone 10 none "base") := by
  have hc : posCandidateOf mEmpty = none := rfl
  have hn : posHistoryCount mEmpty < 2 := by
    norm_num [posHistoryCount, extract_fcf_values, mEmpty, List.filterMap]
  have H := claim_C3_amended pwZero mEmpty cocNone 10 none "base"
  exact ⟨hc, hn, H.1.mpr ⟨hc, hn⟩, H.2⟩

/-! ## C4: hypergrowth failures never surface -/

/-- C4.  Whenever a usable base FCFF exists and the archetype is classified
hypergrowth, `run_dcf_v2` still returns a valuation — a failing hypergrowth
projection is absorbed; and when no positive revenue is known the result
comes from the mature fallback path (no hypergrowth margin metadata). -/
theorem claim_C4 (pw : ℚ → ℚ → PyFloat) (m : Metrics) (coc : CostOfCapital) (h : ℤ)
    (g : Option PyFloat) (p : String) (b : ℚ)
    (hbase : baseFcffOf m = some b)
    (harch : classify_company_archetype pw m b (extract_fcf_values m.fcfSeries)
      = "hypergrowth") :
    (∃ r, run_dcf_v2 pw m coc h g p = .ok r ∧ r.settings.archetype = "hypergrowth")
      ∧ (posRevenue m = false → marginStartOf (run_dcf_v2 pw m coc h g p) = none) := by
  constructor
  · simp only [run_dcf_v2, hbase]
    exact ⟨_, rfl, harch⟩
  · intro hpr
    have hth : truthyPos (safe_optional m.revenueLast) = false := by
      simpa [posRevenue] using hpr
    simp only [run_dcf_v2, hbase, marginStartOf]
    simp [hth, Bool.and_false, mature_branch]

/-- C4, witness: a hypergrowth-hinted payload whose revenue is unknown still
yields a valuation, via the mature fallback. -/
theorem claim_C4_witness :
    baseFcffOf mC4 = some 100
      ∧ classify_company_archetype pwZero mC4 100 (extract_fcf_values mC4.fcfSeries)
          = "hypergrowth"
      ∧ posRevenue mC4 = false
      ∧ (∃ r, run_dcf_v2 pwZero mC4 cocNone 10 none "base" = .ok r
          ∧ r.settings.archetype = "hypergrowth")
      ∧ marginStartOf (run_dcf_v2 pwZero mC4 cocNone 10 none "base") = none := by
  have h1 : baseFcffOf mC4 = some 100 := by
    norm_num [baseFcffOf, baseCandidateOf, compute_normalized_base_fcff, extract_fcf_values,
      safe_optional, mC4, mEmpty, List.filterMap]
  have h2 : classify_company_archetype pwZero mC4 100 (extract_fcf_values mC4.fcfSeries)
      = "hypergrowth" := by decide
  have h3 : posRevenue mC4 = false := by decide
  have H := claim_C4 pwZero mC4 cocNone 10 none "base" 100 h1 h2
  exact ⟨h1, h2, h3, H.1, H.2 h3⟩

/-! ## C5: the resolved WACC stays in the scenario band -/

theorem scenario_band (p a : String) :
    3/50 ≤ (get_scenario_config p a).wacc_min
      ∧ (get_scenario_config p a).wacc_min ≤ (get_scenario_config p a).wacc_max
      ∧ (get_scenario_config p a).wacc_max ≤ 11/100 := by
  by_cases h : a = "hypergrowth" <;> cases hp : parsePreset p <;>
    simp [get_scenario_config, h, hp] <;> norm_num

/-- C5.  For every input, archetype, and scenario preset, the `waccUsed`
echoed by a successful `run_dcf_v2` lies inside the active scenario's
`[waccMin, waccMax]` band, hence inside the global `[0.06, 0.11]` range. -/
theorem claim_C5 (pw : ℚ → ℚ → PyFloat) (m : Metrics) (coc : CostOfCapital) (h : ℤ)
    (g : Option PyFloat) (p : String) :
    waccBandOk (run_dcf_v2 pw m coc h g p) (get_scenario_config p (archetypeOf pw m)) := by
  obtain ⟨hlo, hmid, hhi⟩ := scenario_band p (archetypeOf pw m)
  cases hbase : baseFcffOf m with
  | none => simp [run_dcf_v2, hbase, waccBandOk]
  | some b =>
    simp only [run_dcf_v2, hbase, waccBandOk]
    refine ⟨_, rfl, le_clampQ _ _ _, clampQ_le _ _ _ hmid, ?_, ?_⟩
    · exact le_trans hlo (le_clampQ _ _ _)
    · exact le_trans (clampQ_le _ _ _ hmid) hhi

/-! ## C10: horizon overrides -/

theorem resolveHorizon_some (o : ℤ) (hint : Option ℤ) (c : ℤ) (ho : o ≠ 0) :
    resolveHorizon (some o) hint c = o := by
  simp [resolveHorizon, pyOrInt, ho]

/-- C10.  Whenever the active `(archetype, preset)` combination carries a
horizon override (every combination except mature/base does — the overrides
are 8, 12, 10, 12, 15 as listed), the caller-supplied horizon and the
metrics `horizonYears` hint have no effect on the result, and the forecast
length equals the override. -/
theorem claim_C10 (pw : ℚ → ℚ → PyFloat) (m : Metrics) (coc : CostOfCapital) (h1 h2 : ℤ)
    (hint1 hint2 : Option ℤ) (g : Option PyFloat) (p : String) (o : ℤ)
    (hov : (get_scenario_config p (archetypeOf pw m)).horizon_override = some o)
    (ho : 1 ≤ o) :
    (run_dcf_v2 pw { m with horizonYears := hint1 } coc h1 g p
        = run_dcf_v2 pw { m with horizonYears := hint2 } coc h2 g p)
      ∧ forecastLenOk (run_dcf_v2 pw { m with horizonYears := hint1 } coc h1 g p) o.toNat
      ∧ (get_scenario_config "conservative" "mature").horizon_override = some 8
      ∧ (get_scenario_config "optimistic" "mature").horizon_override = some 12
      ∧ (get_scenario_config "conservative" "hypergrowth").horizon_override = some 10
      ∧ (get_scenario_config "base" "hypergrowth").horizon_override = some 12
      ∧ (get_scenario_config "optimistic" "hypergrowth").horizon_override = some 15
      ∧ (get_scenario_config "base" "mature").horizon_override = none := by
  have hb1 : baseFcffOf { m with horizonYears := hint1 } = baseFcffOf m := rfl
  have hb2 : baseFcffOf { m with horizonYears := hint2 } = baseFcffOf m := rfl
  have htable : (get_scenario_config "conservative" "mature").horizon_override = some 8
      ∧ (get_scenario_config "optimistic" "mature").horizon_override = some 12
      ∧ (get_scenario_config "conservative" "hypergrowth").horizon_override = some 10
      ∧ (get_scenario_config "base" "hypergrowth").horizon_override = some 12
      ∧ (get_scenario_config "optimistic" "hypergrowth").horizon_override = some 15
      ∧ (get_scenario_config "base" "mature").horizon_override = none := by
    refine ⟨?_, ?_, ?_, ?_, ?_, ?_⟩ <;>
      simp [get_scenario_config, parsePreset_conservative, parsePreset_base,
        parsePreset_optimistic]
  cases hbase : baseFcffOf m with
  | none =>
    refine ⟨?_, ?_, htable.1, htable.2.1, htable.2.2.1, htable.2.2.2.1, htable.2.2.2.2.1,
      htable.2.2.2.2.2⟩
    · simp [run_dcf_v2, hb1, hb2, hbase]
    · simp [run_dcf_v2, hb1, hbase, forecastLenOk]
  | some b =>
    have hov' : (get_scenario_config p (classify_company_archetype pw m b
        (extract_fcf_values m.fcfSeries))).horizon_override = some o := hov
    have hcl1 : classify_company_archetype pw { m with horizonYears := hint1 } b
        (extract_fcf_values m.fcfSeries)
        = classify_company_archetype pw m b (extract_fcf_values m.fcfSeries) := rfl
    have hcl2 : classify_company_archetype pw { m with horizonYears := hint2 } b
        (extract_fcf_values m.fcfSeries)
        = classify_company_archetype pw m b (extract_fcf_values m.fcfSeries) := rfl
    refine ⟨?_, ?_, htable.1, htable.2.1, htable.2.2.1, htable.2.2.2.1, htable.2.2.2.2.1,
      htable.2.2.2.2.2⟩
    · simp only [run_dcf_v2, hb1, hb2, hbase]
      rw [hcl1, hcl2, hov', resolveHorizon_some o hint1 h1 (by omega),
        resolveHorizon_some o hint2 h2 (by omega)]
    · simp only [run_dcf_v2, hb1, hbase, forecastLenOk]
      rw [hcl1, hov', resolveHorizon_some o hint1 h1 (by omega)]
      split
      · rename_i b0 hb0
        split at hb0
        · rw [attempt_length hb0, max_eq_right ho]
        · simp at hb0
      · rw [mature_branch_length, max_eq_right ho]

/-- C10, witness: with the hypergrowth/optimistic override of 15, changing
the caller horizon from 3 to 99 and the metrics hint from 7 to absent leaves
the valuation unchanged, and the forecast has 15 entries. -/
theorem claim_C10_witness :
    (get_scenario_config "optimistic" (archetypeOf pwZero mC4)).horizon_override = some 15
      ∧ (1 : ℤ) ≤ 15
      ∧ (run_dcf_v2 pwZero { mC4 with horizonYears := some 7 } cocNone 3 none "optimistic"
          = run_dcf_v2 pwZero { mC4 with horizonYears := none } cocNone 99 none "optimistic")
      ∧ forecastLenOk (run_dcf_v2 pwZero { mC4 with horizonYears := some 7 } cocNone 3 none
          "optimistic") (15 : ℤ).toNat := by
  have h0 : archetypeOf pwZero mC4 = "hypergrowth" := by decide
  have h1 : (get_scenario_config "optimistic" (archetypeOf pwZero mC4)).horizon_override
      = some 15 := by
    rw [h0]
    simp [get_scenario_config, parsePreset_optimistic]
  have H := claim_C10 pwZero mC4 cocNone 3 99 (some 7) none none "optimistic" 15 h1
    (by norm_num)
  exact ⟨h1, by norm_num, H.1, H.2.1⟩

end DcfApp

